import Mathlib

/-!
# go-websockproxy: the switching hub

A shallow embedding of `hub.go`, of `rateLimiter.go` and of the two reader
loops of `wsproxy.go` (`websocketHandler` and `readTAPTraffic`).

* Go strings and byte slices are lists of bytes (`Bytes`).
* Pointers (`*Client`, `*websocket.Conn`) are natural numbers; the `Client`
  objects live in a heap indexed by pointer, next to the two maps of the `Hub`.
* Go maps are association lists with at most one entry per key.
* Everything a function does to the outside (queueing a frame on a peer,
  consulting a throttle, writing to the TAP device, signalling a terminator)
  is recorded, in order, in a list of `Event`s.
* What the outside answers (the throttle's verdict, which depends on the wall
  clock, and the result of the TAP write) is an input of the function.
-/

namespace WebsockProxy

/-- A Go `string` or `[]byte`: a sequence of bytes. -/
abbrev Bytes := List Nat

/-- The bytes of an ASCII literal. -/
def str (s : String) : Bytes := s.toList.map Char.toNat

/-! ## Go maps -/

/-- Map lookup `v, ok := m[k]`. -/
def mapGet {κ ν : Type} [DecidableEq κ] : List (κ × ν) → κ → Option ν
  | [], _ => none
  | (k', v) :: m, k => if k' = k then some v else mapGet m k

/-- Map deletion `delete(m, k)`. -/
def mapDelete {κ ν : Type} [DecidableEq κ] : List (κ × ν) → κ → List (κ × ν)
  | [], _ => []
  | (k', v) :: m, k => if k' = k then mapDelete m k else (k', v) :: mapDelete m k

/-- Map assignment `m[k] = v`. -/
def mapSet {κ ν : Type} [DecidableEq κ] (m : List (κ × ν)) (k : κ) (v : ν) : List (κ × ν) :=
  (k, v) :: mapDelete m k

/-! ## Library functions used by the hub -/

/-- Go `strings.HasPrefix(s, p)`: `len(s) >= len(p) && s[:len(p)] == p`. -/
def HasPrefix (s p : Bytes) : Bool :=
  decide (p.length ≤ s.length) && (s.take p.length == p)

/-- The digit table of Go `net`: `const hexDigit = "0123456789abcdef"`. -/
def hexDigit : Bytes := str "0123456789abcdef"

/-- The two hex digits of one byte: `hexDigit[b>>4]`, `hexDigit[b&0xF]`. -/
def hexByte (b : Nat) : Bytes := [hexDigit.getD (b >>> 4) 0, hexDigit.getD (b &&& 0xF) 0]

/-- The bytes after the first one, each preceded by a colon. -/
def hexTail : Bytes → Bytes
  | [] => []
  | b :: rest => 58 :: (hexByte b ++ hexTail rest)

/-- Go `net.HardwareAddr.String`: the empty string for an empty address,
otherwise lowercase hex bytes separated by colons. -/
def HardwareAddr.String : Bytes → Bytes
  | [] => []
  | b :: rest => hexByte b ++ hexTail rest

/-- `waterutil.MACDestination(frame)`: `frame[:6]`. The callers only pass
frames of at least 12 bytes. -/
def MACDestination (frame : Bytes) : Bytes := frame.take 6

/-- `waterutil.MACSource(frame)`: `frame[6:12]`. -/
def MACSource (frame : Bytes) : Bytes := (frame.drop 6).take 6

/-- `waterutil.IsBroadcast(addr)`: the six bytes are all `0xff`. -/
def IsBroadcast (addr : Bytes) : Bool :=
  addr.getD 0 0 == 0xff && addr.getD 1 0 == 0xff && addr.getD 2 0 == 0xff &&
  addr.getD 3 0 == 0xff && addr.getD 4 0 == 0xff && addr.getD 5 0 == 0xff

/-- `waterutil.IsIPv4Multicast(addr)`: the address starts with `01:00:5e`. -/
def IsIPv4Multicast (addr : Bytes) : Bool :=
  addr.getD 0 0 == 0x01 && addr.getD 1 0 == 0x00 && addr.getD 2 0 == 0x5e

/-! ## Data model -/

/-- The errors the hub and the reader produce, one constructor per site. -/
inductive GoError where
  /-- "MAC address is invalid" -/
  | macInvalid
  /-- "MAC address will not be accepted" -/
  | macNotAccepted
  /-- "client %v tried to send traffic as client %v" -/
  | macSpoof (c existing : Nat)
  /-- "too short special frame payload (%d bytes)" -/
  | specialTooShort (n : Nat)
  /-- "ignoring AUTH frame (authorization disabled on server side)" -/
  | authDisabled
  /-- "client already authorized, ignoring AUTH" -/
  | alreadyAuthorized
  /-- "AUTH key not accepted" -/
  | authKeyNotAccepted
  /-- "invalid special frame: " followed by the five bytes read -/
  | invalidSpecial (head : Bytes)
  /-- an error returned by `tap.Write` -/
  | tapWriteFailed
  /-- `strconv.ErrSyntax` -/
  | parseSyntax
  /-- `strconv.ErrRange` -/
  | parseRange
  /-- an error returned by `websocket.Message.Send` -/
  | wsSendFailed
  /-- an error returned by `tap.Read` -/
  | tapReadFailed
  deriving DecidableEq, Repr

/-- The process-wide settings read by the hub (`authKey`, `macPrefix`,
`uploadBandwidth`, `downloadBandwidth`). -/
structure Config where
  authKey : Bytes
  macPrefix : Bytes
  uploadBandwidth : Int
  downloadBandwidth : Int
  deriving DecidableEq, Repr

/-- `BandwidthAllowance`: `lastCheck` is an instant in nanoseconds. -/
structure BandwidthAllowance where
  lastCheck : Int
  allowance : Int
  rate : Int
  deriving DecidableEq, Repr

/-- The zero value of `BandwidthAllowance`. -/
def BandwidthAllowance.zero : BandwidthAllowance := ⟨0, 0, 0⟩

/-- `Client`. The two channels are not fields here: a send on them is an
`Event`. `remoteAddress` is only ever printed. -/
structure Client where
  upload : BandwidthAllowance
  download : BandwidthAllowance
  ws : Nat
  authorized : Bool
  mac : Bytes
  deriving DecidableEq, Repr

/-- `Hub`: `clients` maps a connection to its client, `clientsByMAC` maps the
text of a MAC address to a client. -/
structure Hub where
  clients : List (Nat × Nat)
  clientsByMAC : List (Bytes × Nat)
  deriving DecidableEq, Repr

/-- The hub together with the `Client` objects its pointers refer to; `next`
is the pointer the next allocation returns. -/
structure State where
  hub : Hub
  heap : Nat → Client
  next : Nat

/-- The heap with the object at `c` replaced. -/
def heapSet (heap : Nat → Client) (c : Nat) (v : Client) : Nat → Client :=
  fun x => if x = c then v else heap x

/-- What a hub operation does to the outside, in program order. -/
inductive Event where
  /-- `peer.Download(frame)`: the frame is queued on the peer -/
  | download (peer : Nat) (frame : Bytes)
  /-- `source.UploadThrottle(frameLen)` was consulted -/
  | uploadThrottle (frameLen : Nat)
  /-- `tap.Write(frame)` -/
  | tapWrite (frame : Bytes)
  /-- `c.terminator <- true` -/
  | terminate (c : Nat)
  /-- the reader called `hub.CanSourceMAC(c, mac)` -/
  | callCanSourceMAC (c : Nat) (mac : Bytes)
  /-- the reader called `hub.SwitchFrame(c, frame)` -/
  | callSwitchFrame (c : Nat) (frame : Bytes)
  /-- the reader called `hub.Remove(c)` -/
  | callRemove (c : Nat)
  deriving DecidableEq, Repr

/-- The `RateLimiter` interface. The verdicts depend on the wall clock, so an
implementation is given by what it answers. -/
structure RateLimiter where
  UploadThrottle : Nat → Bool
  DownloadThrottle : Nat → Bool

/-! ## The hub -/

/-- `NewHub`, with an empty heap. -/
def NewHub : State :=
  { hub := { clients := [], clientsByMAC := [] }
    heap := fun _ => ⟨BandwidthAllowance.zero, BandwidthAllowance.zero, 0, false, []⟩
    next := 0 }

/-- One direction's bucket as `Hub.Add` initialises it. -/
def initAllowance (bandwidth now : Int) : BandwidthAllowance :=
  if bandwidth ≠ 0 then ⟨now, bandwidth, bandwidth⟩ else BandwidthAllowance.zero

/-- `Hub.Add`: allocates the client, registers it under `ws` and returns it.
`now` is the reading of the clock. The sender goroutine that `Add` starts
runs beside the hub and is not part of this function. -/
def Hub.Add (cfg : Config) (now : Int) (s : State) (ws : Nat) : State × Nat :=
  let c : Client :=
    { upload := initAllowance cfg.uploadBandwidth now
      download := initAllowance cfg.downloadBandwidth now
      ws := ws
      authorized := cfg.authKey == []
      mac := [] }
  ({ hub := { s.hub with clients := mapSet s.hub.clients ws s.next }
     heap := heapSet s.heap s.next c
     next := s.next + 1 }, s.next)

/-- `Hub.Remove`. -/
def Hub.Remove (s : State) (c : Nat) : State × List Event :=
  match mapGet s.hub.clients (s.heap c).ws with
  | some _ =>
    let src := HardwareAddr.String (s.heap c).mac
    ({ s with
        hub :=
          { clients := mapDelete s.hub.clients (s.heap c).ws
            clientsByMAC :=
              if src ≠ [] then mapDelete s.hub.clientsByMAC src else s.hub.clientsByMAC } },
      [Event.terminate c])
  | none => (s, [])

/-- `Hub.Clear`. -/
def Hub.Clear (s : State) : State × List Event :=
  ({ s with hub := { clients := [], clientsByMAC := [] } },
    s.hub.clients.map (fun e => Event.terminate e.2))

/-- The first validation of `CanSourceMAC`: the text of the address is the
broadcast address or starts with `33:33` or `01:00:5e`. -/
def invalidSrc (src : Bytes) : Bool :=
  src == str "ff:ff:ff:ff:ff:ff" || HasPrefix src (str "33:33") || HasPrefix src (str "01:00:5e")

/-- The second validation of `CanSourceMAC`: a whitelist is configured and
the text of the address does not start with it. -/
def notWhitelisted (cfg : Config) (src : Bytes) : Bool :=
  cfg.macPrefix != [] && !HasPrefix src cfg.macPrefix

/-- `Hub.CanSourceMAC`: returns the state, `flagAsBad` and the error. -/
def Hub.CanSourceMAC (cfg : Config) (s : State) (c : Nat) (mac : Bytes) :
    State × Bool × Option GoError :=
  let src := HardwareAddr.String mac
  match mapGet s.hub.clientsByMAC src with
  | none =>
    if invalidSrc src then (s, true, some GoError.macInvalid)
    else if notWhitelisted cfg src then (s, true, some GoError.macNotAccepted)
    else
      ({ s with
          hub := { s.hub with clientsByMAC := mapSet s.hub.clientsByMAC src c }
          heap := heapSet s.heap c { s.heap c with mac := mac } },
        false, none)
  | some existingClient =>
    if c ≠ existingClient then (s, true, some (GoError.macSpoof c existingClient))
    else (s, false, none)

/-- The tail shared by both branches of `SwitchFrame`: consult the source's
upload throttle, then write to the TAP device unless it signalled. `tapErr` is
what `tap.Write` returns if it is called. -/
def writeToTap (src : RateLimiter) (frame : Bytes) (tapErr : Option GoError) :
    List Event × Bool × Option GoError :=
  if src.UploadThrottle frame.length then
    ([Event.uploadThrottle frame.length], true, none)
  else
    match tapErr with
    | some err => ([Event.uploadThrottle frame.length, Event.tapWrite frame], false, some err)
    | none => ([Event.uploadThrottle frame.length, Event.tapWrite frame], true, none)

/-- `Hub.SwitchFrame`: the events, the `handled` flag and the error. The hub
itself is not changed. -/
def Hub.SwitchFrame (s : State) (source : Option RateLimiter) (frame : Bytes)
    (tapErr : Option GoError) : List Event × Bool × Option GoError :=
  let dst := MACDestination frame
  if IsBroadcast dst && IsIPv4Multicast dst then
    let downloads := s.hub.clientsByMAC.map (fun e => Event.download e.2 frame)
    match source with
    | some src =>
      let r := writeToTap src frame tapErr
      (downloads ++ r.1, r.2)
    | none => (downloads, true, none)
  else
    match mapGet s.hub.clientsByMAC (HardwareAddr.String dst) with
    | some peer => ([Event.download peer frame], true, none)
    | none =>
      match source with
      | some src => writeToTap src frame tapErr
      | none => ([], false, none)

/-! ## The reader loop -/

/-- `Client.HandleSpecialFrame`: the client afterwards, `skipFrame`,
`flagAsBad` and the error. -/
def Client.HandleSpecialFrame (cfg : Config) (c : Client) (payload : Bytes) :
    Client × Bool × Bool × Option GoError :=
  if payload.length < 8 then (c, true, false, some (GoError.specialTooShort payload.length))
  else if payload.take 5 == str "AUTH " then
    if cfg.authKey == [] then (c, true, false, some GoError.authDisabled)
    else if c.authorized then (c, true, false, some GoError.alreadyAuthorized)
    else if payload.drop 5 == cfg.authKey then ({ c with authorized := true }, true, false, none)
    else (c, true, true, some GoError.authKeyNotAccepted)
  else (c, true, false, some (GoError.invalidSpecial (payload.take 5)))

/-- The client seen as a `RateLimiter` during one iteration of the reader:
`throttled` is what `UploadThrottle` answers at that time. -/
def clientLimiter (throttled : Bool) : RateLimiter :=
  { UploadThrottle := fun _ => throttled, DownloadThrottle := fun _ => throttled }

/-- What `websocket.Message.Receive` returns. -/
inductive Received where
  | frame (f : Bytes)
  | eof
  | failed
  deriving DecidableEq, Repr

/-- What the outside provides to one iteration of the reader: the message
received, the verdict of the client's upload throttle if it is consulted, and
the result of the TAP write if it is made. -/
structure Input where
  recv : Received
  throttled : Bool
  tapErr : Option GoError
  deriving DecidableEq, Repr

/-- The reader between two iterations: `returned` tells that the handler has
returned. -/
structure Reader where
  state : State
  flaggedAsBad : Bool
  events : List Event
  returned : Bool

/-- The part of an iteration of `websocketHandler` after the special-frame
test: the authorization gate, `CanSourceMAC` and `SwitchFrame`. -/
def switchReceived (cfg : Config) (s : State) (client : Nat) (frame : Bytes) (inp : Input) :
    Reader :=
  if !(s.heap client).authorized then ⟨s, false, [], false⟩
  else
    let r := Hub.CanSourceMAC cfg s client (MACSource frame)
    match r.2.2 with
    | some _ => ⟨r.1, r.2.1, [Event.callCanSourceMAC client (MACSource frame)], false⟩
    | none =>
      let w := Hub.SwitchFrame r.1 (some (clientLimiter inp.throttled)) frame inp.tapErr
      let evs := [Event.callCanSourceMAC client (MACSource frame),
        Event.callSwitchFrame client frame] ++ w.1
      match w.2.2 with
      | some _ =>
        let d := Hub.Remove r.1 client
        ⟨d.1, false, evs ++ [Event.callRemove client] ++ d.2, true⟩
      | none => ⟨r.1, false, evs, false⟩

/-- One iteration of the loop of `websocketHandler`. -/
def readerStep (cfg : Config) (s : State) (client : Nat) (flaggedAsBad : Bool) (inp : Input) :
    Reader :=
  match inp.recv with
  | Received.eof | Received.failed =>
    let d := Hub.Remove s client
    ⟨d.1, flaggedAsBad, [Event.callRemove client] ++ d.2, true⟩
  | Received.frame frame =>
    if flaggedAsBad then ⟨s, true, [], false⟩
    else if frame.length < 12 then ⟨s, false, [], false⟩
    else if frame.take 6 == [0, 0, 0, 0, 0, 0] then
      let r := Client.HandleSpecialFrame cfg (s.heap client) (frame.drop 6)
      let s1 : State := { s with heap := heapSet s.heap client r.1 }
      if r.2.2.1 then ⟨s1, true, [], false⟩
      else if r.2.1 then ⟨s1, false, [], false⟩
      else switchReceived cfg s1 client frame inp
    else switchReceived cfg s client frame inp

/-- The loop of `websocketHandler` over the messages that arrive. -/
def readerLoop (cfg : Config) (client : Nat) : Reader → List Input → Reader
  | r, [] => r
  | r, inp :: rest =>
    if r.returned then r
    else
      let r1 := readerStep cfg r.state client r.flaggedAsBad inp
      readerLoop cfg client ⟨r1.state, r1.flaggedAsBad, r.events ++ r1.events, r1.returned⟩ rest

/-- `websocketHandler`: register the connection, then read. -/
def websocketHandler (cfg : Config) (now : Int) (s : State) (ws : Nat) (inputs : List Input) :
    Reader :=
  let a := Hub.Add cfg now s ws
  readerLoop cfg a.2 ⟨a.1, false, [], false⟩ inputs

/-! ## Reachable states -/

/-- The states the hub can be in: from `NewHub` by `Add` on a new connection
and by `Remove`, `Clear` and `CanSourceMAC` on clients that `Add` returned. -/
inductive Reachable (cfg : Config) : State → Prop where
  | init : Reachable cfg NewHub
  | add (s : State) (now : Int) (ws : Nat) :
      Reachable cfg s → (∀ c, c < s.next → (s.heap c).ws ≠ ws) →
      Reachable cfg (Hub.Add cfg now s ws).1
  | remove (s : State) (c : Nat) :
      Reachable cfg s → c < s.next → Reachable cfg (Hub.Remove s c).1
  | clear (s : State) : Reachable cfg s → Reachable cfg (Hub.Clear s).1
  | canSourceMAC (s : State) (c : Nat) (mac : Bytes) :
      Reachable cfg s → c < s.next → Reachable cfg (Hub.CanSourceMAC cfg s c mac).1

/-! ## Predicates used in the statements -/

/-- The reserved addresses, read on the bytes: the broadcast address, an IPv6
multicast address (first bytes `33 33`) or an IPv4 multicast address (first
bytes `01 00 5e`). -/
def isReservedMAC (mac : Bytes) : Bool :=
  mac == [0xff, 0xff, 0xff, 0xff, 0xff, 0xff] || mac.take 2 == [0x33, 0x33] ||
    mac.take 3 == [0x01, 0x00, 0x5e]

/-- Every key of `clientsByMAC` has passed both validations of `CanSourceMAC`. -/
def KeysValid (cfg : Config) (s : State) : Prop :=
  ∀ k c, mapGet s.hub.clientsByMAC k = some c →
    invalidSrc k = false ∧ notWhitelisted cfg k = false

/-- The registry is consistent: a client stored under a connection was
allocated and holds that connection; allocated clients hold distinct
connections; a registered client that has a MAC is indexed under it. -/
def HubInv (s : State) : Prop :=
  (∀ ws c, mapGet s.hub.clients ws = some c → c < s.next ∧ (s.heap c).ws = ws) ∧
  (∀ c d, c < s.next → d < s.next → (s.heap c).ws = (s.heap d).ws → c = d) ∧
  (∀ ws c, mapGet s.hub.clients ws = some c → (s.heap c).mac ≠ [] →
    mapGet s.hub.clientsByMAC (HardwareAddr.String (s.heap c).mac) = some c)

/-! ## The rate limiter -/

/-- An `int64` result: the value modulo `2^64`, taken in `[-2^63, 2^63)`. -/
def wrap64 (x : Int) : Int := (x + 2 ^ 63) % 2 ^ 64 - 2 ^ 63

/-- `BandwidthAllowance.DoThrottle`. The receiver is declared by value
(`func (ba BandwidthAllowance)`), so the function works on its own copy `ba` of
the bucket: the result is that copy as it is when the function returns,
together with the verdict. `now` is `time.Now()` and `credit` is
`int64(timePassed.Seconds() * float64(ba.rate))`, a floating-point product
that is an input here. -/
def BandwidthAllowance.DoThrottle (ba : BandwidthAllowance) (now credit : Int) (size : Nat) :
    BandwidthAllowance × Bool :=
  if ba.rate = 0 then (ba, false)
  else
    let a1 := wrap64 (ba.allowance + credit)
    let a2 := if a1 > ba.rate then ba.rate else a1
    if a2 > 1 then (⟨now, wrap64 (a2 - size), ba.rate⟩, true)
    else (⟨now, a2, ba.rate⟩, false)

/-- `Client.UploadThrottle`: `c.upload.DoThrottle(frameLen)`. The bucket is
handed to `DoThrottle` by value and the copy is dropped on return: the result
is the client after the call, which is the client before it, and the
verdict. -/
def Client.UploadThrottle (c : Client) (now credit : Int) (frameLen : Nat) : Client × Bool :=
  (c, (c.upload.DoThrottle now credit frameLen).2)

/-- `Client.DownloadThrottle`: `c.download.DoThrottle(frameLen)`, in the same
way. -/
def Client.DownloadThrottle (c : Client) (now credit : Int) (frameLen : Nat) : Client × Bool :=
  (c, (c.download.DoThrottle now credit frameLen).2)

/-- Consecutive consults of a client's download throttle, each given by the
clock reading, the credit for the time elapsed and the frame length: the
client at the end and the verdicts in order. -/
def consultDownloads (c : Client) : List (Int × Int × Nat) → Client × List Bool
  | [] => (c, [])
  | (now, credit, n) :: rest =>
    let r := c.DownloadThrottle now credit n
    let t := consultDownloads r.1 rest
    (t.1, r.2 :: t.2)

/-- The same for the upload throttle. -/
def consultUploads (c : Client) : List (Int × Int × Nat) → Client × List Bool
  | [] => (c, [])
  | (now, credit, n) :: rest =>
    let r := c.UploadThrottle now credit n
    let t := consultUploads r.1 rest
    (t.1, r.2 :: t.2)

/-! ## Bandwidth strings -/

/-- Go `strings.HasSuffix(s, t)`: `len(s) >= len(t) && s[len(s)-len(t):] == t`. -/
def HasSuffix (s t : Bytes) : Bool :=
  decide (t.length ≤ s.length) && (s.drop (s.length - t.length) == t)

/-- The ASCII white space that `strings.TrimSpace` removes. -/
def isSpace (b : Nat) : Bool :=
  b == 9 || b == 10 || b == 11 || b == 12 || b == 13 || b == 32

/-- Go `strings.TrimSpace` on ASCII text. -/
def TrimSpace (s : Bytes) : Bytes :=
  ((s.dropWhile isSpace).reverse.dropWhile isSpace).reverse

/-- The value of a string of decimal digits, read after `acc`; `none` when a
byte is not a digit. -/
def parseDigits : Bytes → Nat → Option Nat
  | [], acc => some acc
  | b :: rest, acc =>
    if 48 ≤ b ∧ b ≤ 57 then parseDigits rest (acc * 10 + (b - 48)) else none

/-- Go `strconv.ParseInt(s, 10, 64)`: an optional sign, then at least one
decimal digit; the value must fit an `int64`. -/
def ParseInt (s : Bytes) : Except GoError Int :=
  let neg := s.head? == some 45
  let digits := if s.head? == some 43 || s.head? == some 45 then s.drop 1 else s
  if digits = [] then Except.error GoError.parseSyntax
  else
    match parseDigits digits 0 with
    | none => Except.error GoError.parseSyntax
    | some n =>
      if neg then
        if n > 2 ^ 63 then Except.error GoError.parseRange else Except.ok (-(n : Int))
      else
        if n ≥ 2 ^ 63 then Except.error GoError.parseRange else Except.ok (n : Int)

/-- The common part of the branches of `parseBandwidth`: parse `s` and
multiply by `factor` in `int64`. -/
def parseScaled (s : Bytes) (factor : Int) : Option (Int × Option GoError) :=
  match ParseInt s with
  | Except.error e => some (0, some e)
  | Except.ok n => some (wrap64 (n * factor), none)

/-- `parseBandwidth`: the value and the error, or `none` when the function
panics on a slice out of range. -/
def parseBandwidth (s : Bytes) : Option (Int × Option GoError) :=
  if s = [] then some (0, none)
  else if HasSuffix s (str "kbps") then parseScaled (TrimSpace (s.take (s.length - 4))) 1000
  else if HasSuffix s (str "mbps") then
    parseScaled (TrimSpace (s.take (s.length - 4))) (1000 * 1000)
  else if HasSuffix s (str "kbit") then parseScaled (TrimSpace (s.take (s.length - 4))) 125
  else if HasSuffix s (str "mbit") then
    parseScaled (TrimSpace (s.take (s.length - 4))) (1000 * 125)
  else if HasSuffix s (str "bps") then
    if s.length < 4 then none
    else parseScaled (TrimSpace (s.take (s.length - 4))) 1
  else parseScaled s 1

/-! ## The sender goroutine -/

/-- What the `select` of `deliverFrames` receives: the terminator signal, or
a frame from `c.frameReceiver` together with the verdict of
`c.DownloadThrottle(len(frame))` and the result of `websocket.Message.Send`
if it is called. -/
inductive Selected where
  | terminator
  | frame (f : Bytes) (throttled : Bool) (sendErr : Option GoError)
  deriving DecidableEq, Repr

/-- What the sender does to the outside, in program order. -/
inductive SenderEvent where
  /-- `c.DownloadThrottle(frameLen)` was consulted -/
  | downloadThrottle (frameLen : Nat)
  /-- `websocket.Message.Send(c.ws, frame)` -/
  | wsSend (frame : Bytes)
  deriving DecidableEq, Repr

/-- `Client.deliverFrames` over what its `select` receives, in order: the
events, and the value returned (`some none` for `nil`, `some (some e)` for an
error), or `none` while the loop is still waiting at the `select`. -/
def Client.deliverFrames : List Selected → List SenderEvent × Option (Option GoError)
  | [] => ([], none)
  | Selected.terminator :: _ => ([], some none)
  | Selected.frame f throttled sendErr :: rest =>
    if throttled then
      let r := Client.deliverFrames rest
      (SenderEvent.downloadThrottle f.length :: r.1, r.2)
    else
      match sendErr with
      | some e => ([SenderEvent.downloadThrottle f.length, SenderEvent.wsSend f], some (some e))
      | none =>
        let r := Client.deliverFrames rest
        (SenderEvent.downloadThrottle f.length :: SenderEvent.wsSend f :: r.1, r.2)

/-- `Hub.Remove` with the send on the terminator made explicit.
`c.terminator` is made without a buffer, so `c.terminator <- true` completes
only when a goroutine is receiving from it, and the only receive is the
`select` of `deliverFrames`; `receiving` tells whether the sender goroutine of
`c` is waiting there. When the client is registered and nobody receives, the
call stays at the send with the hub lock held: the result is `none`. -/
def Hub.RemoveWith (s : State) (c : Nat) (receiving : Bool) : Option (State × List Event) :=
  match mapGet s.hub.clients (s.heap c).ws with
  | some _ => if receiving then some (Hub.Remove s c) else none
  | none => some (s, [])

/-- How the goroutine that `Add` starts stands after what its `select` has
received. -/
inductive SenderEnd where
  /-- still in `deliverFrames`, waiting at the `select` -/
  | waiting
  /-- the goroutine has ended (hub lock free); the state is the hub it leaves -/
  | ended (s : State)
  /-- in `h.Remove(c)`, stopped at `c.terminator <- true` with the hub lock held -/
  | stuckInRemove

/-- Whether the goroutine holds the hub lock for good. -/
def SenderEnd.holdsHubLock : SenderEnd → Bool
  | SenderEnd.stuckInRemove => true
  | _ => false

/-- The goroutine that `Add` starts: `deliverFrames`, then `h.Remove(c)` if it
returned an error. `s` is the hub when `Remove` takes the lock. The goroutine
is the one receiver of `c.terminator` and it has left `deliverFrames`, so
nobody is receiving when it calls `Remove`. -/
def senderGoroutine (s : State) (c : Nat) (sel : List Selected) :
    List SenderEvent × SenderEnd :=
  let d := Client.deliverFrames sel
  match d.2 with
  | none => (d.1, SenderEnd.waiting)
  | some none => (d.1, SenderEnd.ended s)
  | some (some _) =>
    match Hub.RemoveWith s c false with
    | some r => (d.1, SenderEnd.ended r.1)
    | none => (d.1, SenderEnd.stuckInRemove)

/-! ## The TAP reader -/

/-- What `tap.Read` returns: the bytes of the frame read, or an error. -/
inductive TapRead where
  | data (bytes : Bytes)
  | failed (err : GoError)
  deriving DecidableEq, Repr

/-- The buffer of `readTAPTraffic`: `make([]byte, 1500+18)`. -/
def tapBuffer : Bytes := List.replicate (1500 + 18) 0

/-- The number of bytes `tap.Read(buf)` stores: at most the length of the
buffer. -/
def readCount (buf bytes : Bytes) : Nat := min bytes.length buf.length

/-- The buffer after `tap.Read(buf)` has stored the frame in its first
bytes; the rest keeps what it held. -/
def readInto (buf bytes : Bytes) : Bytes :=
  bytes.take (readCount buf bytes) ++ buf.drop (readCount buf bytes)

/-- `readTAPTraffic` over the results of its reads, starting with the buffer
`frame`: the events of the calls of `SwitchFrame`, the frames handed to them,
and the error returned (`none` while the loop is still reading). `s` is the
hub while the loop runs. -/
def readTAPLoop (s : State) : Bytes → List TapRead → List Event × List Bytes × Option GoError
  | _, [] => ([], [], none)
  | _, TapRead.failed err :: _ => ([], [], some err)
  | frame, TapRead.data bytes :: rest =>
    let n := readCount frame bytes
    let frame1 := readInto frame bytes
    if n < 12 then readTAPLoop s frame1 rest
    else
      let w := Hub.SwitchFrame s none frame1 none
      match w.2.2 with
      | some err => (w.1, [frame1], some err)
      | none =>
        let r := readTAPLoop s frame1 rest
        (w.1 ++ r.1, frame1 :: r.2.1, r.2.2)

/-- `readTAPTraffic`: the loop on a fresh buffer. -/
def readTAPTraffic (s : State) (reads : List TapRead) : List Event × List Bytes × Option GoError :=
  readTAPLoop s tapBuffer reads

/-! ## Example states -/

/-- No authorization key, no whitelist, no bandwidth limit. -/
def openConfig : Config := ⟨[], [], 0, 0⟩

/-- Two peers on connections 10 and 11: peer 0 has learned `02:00:00:00:00:01`
and peer 1 has learned `02:00:00:00:00:02`. -/
def twoPeers : State :=
  let s0 := (Hub.Add openConfig 0 NewHub 10).1
  let s1 := (Hub.Add openConfig 0 s0 11).1
  let s2 := (Hub.CanSourceMAC openConfig s1 0 [2, 0, 0, 0, 0, 1]).1
  (Hub.CanSourceMAC openConfig s2 1 [2, 0, 0, 0, 0, 2]).1

/-- A rate limiter that never signals. -/
def neverThrottle : RateLimiter := clientLimiter false

/-- One peer on connection 10 that has not sent anything yet. -/
def onePeer : State := (Hub.Add openConfig 0 NewHub 10).1

/-- The peer of `onePeer` after it has sent a frame from `02:00:00:00:00:01`
and then a frame from `02:00:00:00:00:02`. -/
def rebound : State :=
  let s1 := (Hub.CanSourceMAC openConfig onePeer 0 [2, 0, 0, 0, 0, 1]).1
  (Hub.CanSourceMAC openConfig s1 0 [2, 0, 0, 0, 0, 2]).1

/-- A new connection whose first message is a 12-byte frame to
`02:00:00:00:00:01` with an all-zero source MAC; no authorization key is
configured. -/
def zeroSourceRun : Reader :=
  websocketHandler openConfig 0 NewHub 10
    [⟨Received.frame [2, 0, 0, 0, 0, 1, 0, 0, 0, 0, 0, 0], false, none⟩]

/-- The same with the key `s3cret` configured: the peer first authorizes
itself with `AUTH s3cret`, then sends the frame with the all-zero source. -/
def zeroSourceAfterAuth : Reader :=
  websocketHandler ⟨str "s3cret", [], 0, 0⟩ 0 NewHub 10
    [⟨Received.frame ([0, 0, 0, 0, 0, 0] ++ str "AUTH s3cret"), false, none⟩,
     ⟨Received.frame [2, 0, 0, 0, 0, 1, 0, 0, 0, 0, 0, 0], false, none⟩]

/-- The configuration with the key `s3cret`. -/
def secretConfig : Config := ⟨str "s3cret", [], 0, 0⟩

/-- One peer on connection 10 under `secretConfig`, not yet authorized. -/
def lockedPeer : State := (Hub.Add secretConfig 0 NewHub 10).1

/-- The control frame that carries `payload`: six zero bytes, then the
payload. -/
def controlFrame (payload : Bytes) : Bytes := [0, 0, 0, 0, 0, 0] ++ payload

/-- Both directions limited to 1000 bytes per second. -/
def limitedConfig : Config := ⟨[], [], 1000, 1000⟩

/-- A client created at time 0 under `limitedConfig`: both buckets have rate
1000 and allowance 1000. -/
def limitedClient : Client := (Hub.Add limitedConfig 0 NewHub 10).1.heap 0

/-! ## Facts about maps -/

theorem mapGet_mapDelete_self {κ ν : Type} [DecidableEq κ] (m : List (κ × ν)) (k : κ) :
    mapGet (mapDelete m k) k = none := by
  induction m with
  | nil => rfl
  | cons e m ih =>
    obtain ⟨k', v⟩ := e
    by_cases h : k' = k
    · simp [mapDelete, h, ih]
    · simp [mapDelete, mapGet, h, ih]

theorem mapGet_mapDelete_ne {κ ν : Type} [DecidableEq κ] (m : List (κ × ν)) {k k1 : κ}
    (hne : k1 ≠ k) : mapGet (mapDelete m k) k1 = mapGet m k1 := by
  induction m with
  | nil => rfl
  | cons e m ih =>
    obtain ⟨k', v⟩ := e
    by_cases h : k' = k
    · subst h
      have h1 : ¬ k' = k1 := fun h2 => hne h2.symm
      simp only [mapDelete, mapGet, if_true, if_neg h1, ih]
    · by_cases h1 : k' = k1
      · subst h1
        simp only [mapDelete, mapGet, if_neg h, if_true]
      · simp only [mapDelete, mapGet, if_neg h, if_neg h1, ih]

theorem mapGet_mapDelete_some {κ ν : Type} [DecidableEq κ] (m : List (κ × ν)) {k k1 : κ} {v : ν}
    (h : mapGet (mapDelete m k) k1 = some v) : k1 ≠ k ∧ mapGet m k1 = some v := by
  by_cases hk : k1 = k
  · subst hk
    rw [mapGet_mapDelete_self] at h
    cases h
  · exact ⟨hk, by rw [← mapGet_mapDelete_ne m hk]; exact h⟩

theorem mapGet_mapSet_self {κ ν : Type} [DecidableEq κ] (m : List (κ × ν)) (k : κ) (v : ν) :
    mapGet (mapSet m k v) k = some v := by
  simp [mapSet, mapGet]

theorem mapGet_mapSet_ne {κ ν : Type} [DecidableEq κ] (m : List (κ × ν)) {k k1 : κ} (v : ν)
    (hne : k1 ≠ k) : mapGet (mapSet m k v) k1 = mapGet m k1 := by
  have h : ¬ k = k1 := fun h => hne h.symm
  simp [mapSet, mapGet, h, mapGet_mapDelete_ne m hne]

/-! ## The text of an address -/

theorem hexDigit_eq : hexDigit = [48, 49, 50, 51, 52, 53, 54, 55, 56, 57, 97, 98, 99, 100, 101, 102] := by
  decide

theorem hexDigit_getD_inj (i j : Nat) (hj : j < 16)
    (h : hexDigit.getD i 0 = hexDigit.getD j 0) : i = j := by
  rw [hexDigit_eq] at h
  by_cases hi : i < 16
  · interval_cases i <;> interval_cases j <;> first | rfl | (exfalso; revert h; decide)
  · have h0 : [48, 49, 50, 51, 52, 53, 54, 55, 56, 57, 97, 98, 99, 100, 101, 102].getD i 0 = 0 :=
      List.getD_eq_default _ _ (by simp; omega)
    rw [h0] at h
    interval_cases j <;> (exfalso; revert h; decide)

theorem hexByte_inj (x y : Nat) (hy : y < 256) (h : hexByte x = hexByte y) : x = y := by
  simp only [hexByte, List.cons.injEq, and_true] at h
  have h1 := hexDigit_getD_inj _ _ (by rw [Nat.shiftRight_eq_div_pow]; omega) h.1
  have h2 := hexDigit_getD_inj (x &&& 0xF) (y &&& 0xF)
    (by rw [show (0xF : Nat) = 2 ^ 4 - 1 from rfl, Nat.and_pow_two_sub_one_eq_mod]; omega) h.2
  rw [Nat.shiftRight_eq_div_pow, Nat.shiftRight_eq_div_pow] at h1
  rw [show (0xF : Nat) = 2 ^ 4 - 1 from rfl, Nat.and_pow_two_sub_one_eq_mod,
    Nat.and_pow_two_sub_one_eq_mod] at h2
  omega

theorem hexByte_eq_iff (x y : Nat) (hy : y < 256) : hexByte x = hexByte y ↔ x = y :=
  ⟨hexByte_inj x y hy, fun h => by rw [h]⟩

theorem string_ne_nil (mac : Bytes) (h : mac ≠ []) : HardwareAddr.String mac ≠ [] := by
  cases mac with
  | nil => exact absurd rfl h
  | cons b rest => simp [HardwareAddr.String, hexByte]


theorem hexByte_digits (x y d1 d2 : Nat) (hy : y < 256) (hd : hexByte y = [d1, d2]) :
    (hexDigit.getD (x >>> 4) 0 = d1 ∧ hexDigit.getD (x &&& 0xF) 0 = d2) ↔ x = y := by
  rw [← hexByte_eq_iff x y hy, hd]
  simp [hexByte]

theorem invalidSrc_string (mac : Bytes) (hlen : mac.length = 6) :
    invalidSrc (HardwareAddr.String mac) = isReservedMAC mac := by
  match mac, hlen with
  | [a, b, c, d, e, f], _ =>
    have hff : str "ff:ff:ff:ff:ff:ff" =
        [102, 102, 58, 102, 102, 58, 102, 102, 58, 102, 102, 58, 102, 102, 58, 102, 102] := by
      decide
    have h33 : str "33:33" = [51, 51, 58, 51, 51] := by decide
    have h01 : str "01:00:5e" = [48, 49, 58, 48, 48, 58, 53, 101] := by decide
    have kff := fun x => hexByte_digits x 255 102 102 (by decide) (by decide)
    have k33 := fun x => hexByte_digits x 0x33 51 51 (by decide) (by decide)
    have k01 := fun x => hexByte_digits x 1 48 49 (by decide) (by decide)
    have k00 := fun x => hexByte_digits x 0 48 48 (by decide) (by decide)
    have k5e := fun x => hexByte_digits x 0x5e 53 101 (by decide) (by decide)
    rw [Bool.eq_iff_iff]
    simp only [invalidSrc, isReservedMAC, hff, h33, h01, HasPrefix, HardwareAddr.String, hexTail,
      hexByte, Bool.or_eq_true, Bool.and_eq_true, beq_iff_eq, decide_eq_true_eq,
      List.cons_append, List.nil_append, List.length_cons, List.length_nil, List.take,
      List.cons.injEq, and_true, true_and]
    have a1 := kff a
    have a2 := kff b
    have a3 := kff c
    have a4 := kff d
    have a5 := kff e
    have a6 := kff f
    have b1 := k33 a
    have b2 := k33 b
    have c1 := k01 a
    have c2 := k00 b
    have c3 := k5e c
    have l1 : 0 + 1 + 1 + 1 + 1 + 1 ≤ 0 + 1 + 1 + 1 + 1 + 1 + 1 + 1 + 1 + 1 + 1 + 1 + 1 + 1 + 1 + 1 + 1 + 1 := by
      decide
    have l2 : 0 + 1 + 1 + 1 + 1 + 1 + 1 + 1 + 1 ≤
        0 + 1 + 1 + 1 + 1 + 1 + 1 + 1 + 1 + 1 + 1 + 1 + 1 + 1 + 1 + 1 + 1 + 1 := by
      decide
    simp only [l1, l2, true_and]
    clear kff k33 k01 k00 k5e l1 l2 hff h33 h01
    generalize List.getD hexDigit (a >>> 4) 0 = pa at *
    generalize List.getD hexDigit (a &&& 15) 0 = qa at *
    generalize List.getD hexDigit (b >>> 4) 0 = pb at *
    generalize List.getD hexDigit (b &&& 15) 0 = qb at *
    generalize List.getD hexDigit (c >>> 4) 0 = pc at *
    generalize List.getD hexDigit (c &&& 15) 0 = qc at *
    generalize List.getD hexDigit (d >>> 4) 0 = pd at *
    generalize List.getD hexDigit (d &&& 15) 0 = qd at *
    generalize List.getD hexDigit (e >>> 4) 0 = pe at *
    generalize List.getD hexDigit (e &&& 15) 0 = qe at *
    generalize List.getD hexDigit (f >>> 4) 0 = pf at *
    generalize List.getD hexDigit (f &&& 15) 0 = qf at *
    rw [← a1, ← a2, ← a3, ← a4, ← a5, ← a6, ← b1, ← b2, ← c1, ← c2, ← c3]
    simp only [and_assoc]

theorem string_eq_nil_iff (mac : Bytes) : HardwareAddr.String mac = [] ↔ mac = [] :=
  ⟨fun h => by
    by_contra hne
    exact string_ne_nil mac hne h, fun h => by rw [h]; rfl⟩

/-! ## Switching -/

/-- No address passes both tests of the flood guard of `SwitchFrame`: its
first byte would be `0xff` and `0x01`. -/
theorem flood_guard_false (dst : Bytes) : (IsBroadcast dst && IsIPv4Multicast dst) = false := by
  rw [Bool.eq_false_iff]
  intro h
  simp only [IsBroadcast, IsIPv4Multicast, Bool.and_eq_true, beq_iff_eq] at h
  omega

/-- `SwitchFrame` always takes the unicast path. -/
theorem switchFrame_eq (s : State) (source : Option RateLimiter) (frame : Bytes)
    (tapErr : Option GoError) :
    Hub.SwitchFrame s source frame tapErr =
      match mapGet s.hub.clientsByMAC (HardwareAddr.String (MACDestination frame)) with
      | some peer => ([Event.download peer frame], true, none)
      | none =>
        match source with
        | some src => writeToTap src frame tapErr
        | none => ([], false, none) := by
  simp only [Hub.SwitchFrame, flood_guard_false]
  rfl

/-- C1: a frame of at least 12 bytes whose destination MAC is a key of
`clientsByMAC` is queued on the peer stored under that key and on no other
peer; the source's upload throttle is not consulted, nothing is written to the
TAP device, and the result is `(true, nil)`. This holds for every hub state
and every source, a peer or the TAP. -/
theorem C1_switchFrame_learned_destination (s : State) (source : Option RateLimiter)
    (frame : Bytes) (tapErr : Option GoError) (peer : Nat)
    (_hlen : 12 ≤ frame.length)
    (hkey : mapGet s.hub.clientsByMAC (HardwareAddr.String (MACDestination frame)) = some peer) :
    Hub.SwitchFrame s source frame tapErr = ([Event.download peer frame], true, none) := by
  rw [switchFrame_eq, hkey]

theorem C1_switchFrame_learned_destination_witness :
    12 ≤ [2, 0, 0, 0, 0, 2, 2, 0, 0, 0, 0, 1].length ∧
    Hub.SwitchFrame twoPeers (some neverThrottle) [2, 0, 0, 0, 0, 2, 2, 0, 0, 0, 0, 1] none =
      ([Event.download 1 [2, 0, 0, 0, 0, 2, 2, 0, 0, 0, 0, 1]], true, none) :=
  ⟨by decide,
    C1_switchFrame_learned_destination twoPeers (some neverThrottle)
      [2, 0, 0, 0, 0, 2, 2, 0, 0, 0, 0, 1] none 1 (by decide) (by decide)⟩

/-- C2: a frame of at least 12 bytes sent by a peer to a destination MAC that
is not a key of `clientsByMAC` is queued on no peer: the events are one consult
of the source's `UploadThrottle(len(frame))`, followed by one write of the
frame to the TAP device if the consult answered false and by nothing if it
answered true; the result is `(true, nil)` unless the write was made and
failed. -/
theorem C2_switchFrame_unknown_destination (s : State) (src : RateLimiter) (frame : Bytes)
    (tapErr : Option GoError) (_hlen : 12 ≤ frame.length)
    (hkey : mapGet s.hub.clientsByMAC (HardwareAddr.String (MACDestination frame)) = none) :
    (Hub.SwitchFrame s (some src) frame tapErr).1 =
        Event.uploadThrottle frame.length ::
          (if src.UploadThrottle frame.length then [] else [Event.tapWrite frame]) ∧
      ((src.UploadThrottle frame.length = true ∨ tapErr = none) →
        (Hub.SwitchFrame s (some src) frame tapErr).2 = (true, none)) := by
  rw [switchFrame_eq, hkey]
  simp only [writeToTap]
  cases hthr : src.UploadThrottle frame.length
  · cases tapErr with
    | none => simp
    | some err => simp
  · simp

theorem C2_switchFrame_unknown_destination_witness :
    12 ≤ [2, 0, 0, 0, 0, 9, 2, 0, 0, 0, 0, 1].length ∧
    (Hub.SwitchFrame twoPeers (some neverThrottle) [2, 0, 0, 0, 0, 9, 2, 0, 0, 0, 0, 1] none).1 =
      Event.uploadThrottle [2, 0, 0, 0, 0, 9, 2, 0, 0, 0, 0, 1].length ::
        (if neverThrottle.UploadThrottle [2, 0, 0, 0, 0, 9, 2, 0, 0, 0, 0, 1].length then []
          else [Event.tapWrite [2, 0, 0, 0, 0, 9, 2, 0, 0, 0, 0, 1]]) :=
  ⟨by decide,
    (C2_switchFrame_unknown_destination twoPeers neverThrottle
      [2, 0, 0, 0, 0, 9, 2, 0, 0, 0, 0, 1] none (by decide) (by decide)).1⟩

/-- C3: a broadcast frame is not flooded. With peer 0 bound to
`02:00:00:00:00:01` and peer 1 bound to `02:00:00:00:00:02`, a frame sent by
peer 0 to `ff:ff:ff:ff:ff:ff` is written to the TAP device and queued on no
peer; the same happens to a frame sent to the IPv4 multicast address
`01:00:5e:00:00:01` and to the IPv6 multicast address `33:33:00:00:00:01`. -/
theorem C3_broadcast_not_flooded :
    mapGet twoPeers.hub.clientsByMAC (str "02:00:00:00:00:01") = some 0 ∧
    mapGet twoPeers.hub.clientsByMAC (str "02:00:00:00:00:02") = some 1 ∧
    Hub.SwitchFrame twoPeers (some neverThrottle)
        [0xff, 0xff, 0xff, 0xff, 0xff, 0xff, 2, 0, 0, 0, 0, 1] none =
      ([Event.uploadThrottle 12,
        Event.tapWrite [0xff, 0xff, 0xff, 0xff, 0xff, 0xff, 2, 0, 0, 0, 0, 1]], true, none) ∧
    Hub.SwitchFrame twoPeers (some neverThrottle)
        [0x01, 0x00, 0x5e, 0, 0, 1, 2, 0, 0, 0, 0, 1] none =
      ([Event.uploadThrottle 12,
        Event.tapWrite [0x01, 0x00, 0x5e, 0, 0, 1, 2, 0, 0, 0, 0, 1]], true, none) ∧
    Hub.SwitchFrame twoPeers (some neverThrottle)
        [0x33, 0x33, 0, 0, 0, 1, 2, 0, 0, 0, 0, 1] none =
      ([Event.uploadThrottle 12,
        Event.tapWrite [0x33, 0x33, 0, 0, 0, 1, 2, 0, 0, 0, 0, 1]], true, none) := by
  decide

/-! ## Source MAC acceptance -/

/-- C4: when `clientsByMAC` maps the text of `mac` to peer `A`, a call of
`CanSourceMAC` by any other peer `B` returns `flagAsBad = true` with an error
and returns the state it was given: both maps and every client, `A` and `B`
included, are what they were. -/
theorem C4_canSourceMAC_spoof (cfg : Config) (s : State) (mac : Bytes) (A B : Nat)
    (hA : mapGet s.hub.clientsByMAC (HardwareAddr.String mac) = some A) (hB : B ≠ A) :
    Hub.CanSourceMAC cfg s B mac = (s, true, some (GoError.macSpoof B A)) := by
  simp only [Hub.CanSourceMAC, hA]
  simp [hB]

theorem C4_canSourceMAC_spoof_witness :
    Hub.CanSourceMAC openConfig twoPeers 1 [2, 0, 0, 0, 0, 1] =
      (twoPeers, true, some (GoError.macSpoof 1 0)) :=
  C4_canSourceMAC_spoof openConfig twoPeers [2, 0, 0, 0, 0, 1] 0 1 (by decide) (by decide)

/-! ## Invariants of the reachable states -/

theorem canSourceMAC_cases (cfg : Config) (s : State) (c : Nat) (mac : Bytes) :
    (Hub.CanSourceMAC cfg s c mac).1 = s ∨
    (mapGet s.hub.clientsByMAC (HardwareAddr.String mac) = none ∧
      invalidSrc (HardwareAddr.String mac) = false ∧
      notWhitelisted cfg (HardwareAddr.String mac) = false ∧
      Hub.CanSourceMAC cfg s c mac =
        ({ s with
            hub := { s.hub with
              clientsByMAC := mapSet s.hub.clientsByMAC (HardwareAddr.String mac) c }
            heap := heapSet s.heap c { s.heap c with mac := mac } }, false, none)) := by
  cases hg : mapGet s.hub.clientsByMAC (HardwareAddr.String mac) with
  | some x =>
    left
    simp only [Hub.CanSourceMAC, hg]
    split <;> rfl
  | none =>
    cases hi : invalidSrc (HardwareAddr.String mac) with
    | true =>
      left
      simp [Hub.CanSourceMAC, hg, hi]
    | false =>
      cases hw : notWhitelisted cfg (HardwareAddr.String mac) with
      | true =>
        left
        simp [Hub.CanSourceMAC, hg, hi, hw]
      | false =>
        right
        simp [Hub.CanSourceMAC, hg, hi, hw]

theorem remove_cases (s : State) (c : Nat) :
    Hub.Remove s c = (s, []) ∨
    (mapGet s.hub.clients (s.heap c).ws ≠ none ∧
      Hub.Remove s c =
        ({ s with
            hub :=
              { clients := mapDelete s.hub.clients (s.heap c).ws
                clientsByMAC :=
                  if HardwareAddr.String (s.heap c).mac ≠ [] then
                    mapDelete s.hub.clientsByMAC (HardwareAddr.String (s.heap c).mac)
                  else s.hub.clientsByMAC } },
          [Event.terminate c])) := by
  cases hg : mapGet s.hub.clients (s.heap c).ws with
  | none =>
    left
    simp only [Hub.Remove, hg]
  | some x =>
    right
    refine ⟨by simp, ?_⟩
    simp only [Hub.Remove, hg]

theorem reachable_keysValid (cfg : Config) (s : State) (h : Reachable cfg s) :
    KeysValid cfg s := by
  induction h with
  | init =>
    intro k c h
    simp [NewHub, mapGet] at h
  | add s now ws _ _ ih => exact ih
  | remove s c _ _ ih =>
    intro k d h
    rcases remove_cases s c with he | ⟨_, he⟩
    · rw [he] at h
      exact ih k d h
    · rw [he] at h
      by_cases hs : HardwareAddr.String (s.heap c).mac ≠ []
      · simp only [if_pos hs] at h
        exact ih k d (mapGet_mapDelete_some _ h).2
      · simp only [if_neg hs] at h
        exact ih k d h
  | clear s _ ih =>
    intro k c h
    simp [Hub.Clear, mapGet] at h
  | canSourceMAC s c mac _ _ ih =>
    intro k d h
    rcases canSourceMAC_cases cfg s c mac with he | ⟨_, hi, hw, he⟩
    · rw [he] at h
      exact ih k d h
    · rw [he] at h
      by_cases hk : k = HardwareAddr.String mac
      · rw [hk]
        exact ⟨hi, hw⟩
      · simp only [mapGet_mapSet_ne _ _ hk] at h
        exact ih k d h

theorem reachable_hubInv (cfg : Config) (s : State) (h : Reachable cfg s) : HubInv s := by
  induction h with
  | init =>
    refine ⟨?_, ?_, ?_⟩
    · intro ws c h
      simp [NewHub, mapGet] at h
    · intro c d hc
      simp [NewHub] at hc
    · intro ws c h
      simp [NewHub, mapGet] at h
  | add s now ws _ hfresh ih =>
    obtain ⟨i1, i2, i3⟩ := ih
    have hheap : ∀ x, x ≠ s.next → (Hub.Add cfg now s ws).1.heap x = s.heap x := by
      intro x hx
      simp [Hub.Add, heapSet, hx]
    have hnew : ((Hub.Add cfg now s ws).1.heap s.next).ws = ws ∧
        ((Hub.Add cfg now s ws).1.heap s.next).mac = [] := by
      simp [Hub.Add, heapSet]
    have hget : ∀ w x, mapGet (Hub.Add cfg now s ws).1.hub.clients w = some x →
        (w = ws ∧ x = s.next) ∨ (w ≠ ws ∧ mapGet s.hub.clients w = some x) := by
      intro w x hx
      by_cases hw : w = ws
      · left
        subst hw
        simp only [Hub.Add, mapGet_mapSet_self, Option.some.injEq] at hx
        exact ⟨rfl, hx.symm⟩
      · right
        simp only [Hub.Add, mapGet_mapSet_ne _ _ hw] at hx
        exact ⟨hw, hx⟩
    refine ⟨?_, ?_, ?_⟩
    · intro w x hx
      rcases hget w x hx with ⟨hw, hxn⟩ | ⟨_, hold⟩
      · subst hw hxn
        exact ⟨Nat.lt_succ_self _, hnew.1⟩
      · have := i1 w x hold
        rw [hheap x (Nat.ne_of_lt this.1)]
        exact ⟨Nat.lt_succ_of_lt this.1, this.2⟩
    · intro x y hx hy hxy
      have hx1 : x < s.next + 1 := hx
      have hy1 : y < s.next + 1 := hy
      by_cases hxn : x = s.next
      · by_cases hyn : y = s.next
        · rw [hxn, hyn]
        · exfalso
          rw [hxn, hnew.1, hheap y hyn] at hxy
          exact hfresh y (by omega) hxy.symm
      · by_cases hyn : y = s.next
        · exfalso
          rw [hyn, hnew.1, hheap x hxn] at hxy
          exact hfresh x (by omega) hxy
        · rw [hheap x hxn, hheap y hyn] at hxy
          exact i2 x y (by omega) (by omega) hxy
    · intro w x hx hmac
      rcases hget w x hx with ⟨_, hxn⟩ | ⟨_, hold⟩
      · subst hxn
        exact absurd hnew.2 hmac
      · have hlt := (i1 w x hold).1
        rw [hheap x (Nat.ne_of_lt hlt)] at hmac ⊢
        exact i3 w x hold hmac
  | remove s c _ hc ih =>
    obtain ⟨i1, i2, i3⟩ := ih
    rcases remove_cases s c with he | ⟨hsome, he⟩
    · rw [he]
      exact ⟨i1, i2, i3⟩
    · rw [he]
      have hreg : mapGet s.hub.clients (s.heap c).ws = some c := by
        cases hg : mapGet s.hub.clients (s.heap c).ws with
        | none => exact absurd hg hsome
        | some x =>
          have hx := i1 _ x hg
          rw [i2 x c hx.1 hc hx.2]
      refine ⟨?_, i2, ?_⟩
      · intro w x hx
        exact i1 w x (mapGet_mapDelete_some _ hx).2
      · intro w x hx hmac
        have hx1 := mapGet_mapDelete_some _ hx
        have hidx := i3 w x hx1.2 hmac
        by_cases hs : HardwareAddr.String (s.heap c).mac ≠ []
        · simp only [if_pos hs]
          have hcmac : (s.heap c).mac ≠ [] := fun h0 => hs (by rw [h0]; rfl)
          have hc3 := i3 _ c hreg hcmac
          have hne : HardwareAddr.String (s.heap x).mac ≠ HardwareAddr.String (s.heap c).mac := by
            intro heq
            rw [heq, hc3] at hidx
            have hxc : c = x := Option.some.inj hidx
            subst hxc
            exact hx1.1 (i1 w c hx1.2).2.symm
          show mapGet (mapDelete s.hub.clientsByMAC _) _ = some x
          rw [mapGet_mapDelete_ne _ hne]
          exact hidx
        · simp only [if_neg hs]
          exact hidx
  | clear s _ ih =>
    obtain ⟨_, i2, _⟩ := ih
    refine ⟨?_, i2, ?_⟩
    · intro ws c h
      simp [Hub.Clear, mapGet] at h
    · intro ws c h
      simp [Hub.Clear, mapGet] at h
  | canSourceMAC s c mac _ _ ih =>
    obtain ⟨i1, i2, i3⟩ := ih
    rcases canSourceMAC_cases cfg s c mac with he | ⟨hnone, _, _, he⟩
    · rw [he]
      exact ⟨i1, i2, i3⟩
    · rw [he]
      have hws : ∀ x, ((heapSet s.heap c { s.heap c with mac := mac }) x).ws = (s.heap x).ws := by
        intro x
        by_cases hx : x = c
        · simp [heapSet, hx]
        · simp [heapSet, hx]
      refine ⟨?_, ?_, ?_⟩
      · intro w x hx
        have := i1 w x hx
        exact ⟨this.1, (hws x).trans this.2⟩
      · intro x y hx hy hxy
        change ((heapSet s.heap c { s.heap c with mac := mac }) x).ws =
          ((heapSet s.heap c { s.heap c with mac := mac }) y).ws at hxy
        rw [hws x, hws y] at hxy
        exact i2 x y hx hy hxy
      · intro w x hx hmac
        change mapGet s.hub.clients w = some x at hx
        change ((heapSet s.heap c { s.heap c with mac := mac }) x).mac ≠ [] at hmac
        change mapGet (mapSet s.hub.clientsByMAC (HardwareAddr.String mac) c)
          (HardwareAddr.String ((heapSet s.heap c { s.heap c with mac := mac }) x).mac) = some x
        by_cases hxc : x = c
        · subst hxc
          simp [heapSet, mapGet_mapSet_self]
        · have hsame : (heapSet s.heap c { s.heap c with mac := mac }) x = s.heap x := by
            simp [heapSet, hxc]
          rw [hsame] at hmac ⊢
          have hidx := i3 w x hx hmac
          have hne : HardwareAddr.String (s.heap x).mac ≠ HardwareAddr.String mac := by
            intro heq
            rw [heq, hnone] at hidx
            cases hidx
          rw [mapGet_mapSet_ne _ _ hne]
          exact hidx

theorem onePeer_reachable : Reachable openConfig onePeer :=
  Reachable.add NewHub 0 10 Reachable.init (fun c hc => absurd hc (Nat.not_lt_zero c))

theorem twoPeers_reachable : Reachable openConfig twoPeers := by
  have h1 : Reachable openConfig (Hub.Add openConfig 0 onePeer 11).1 := by
    refine Reachable.add onePeer 0 11 onePeer_reachable ?_
    intro c hc
    have hc0 : c = 0 := by
      have : c < 1 := hc
      omega
    subst hc0
    decide
  have h2 := Reachable.canSourceMAC _ 0 [2, 0, 0, 0, 0, 1] h1 (by decide)
  exact Reachable.canSourceMAC _ 1 [2, 0, 0, 0, 0, 2] h2 (by decide)

theorem rebound_reachable : Reachable openConfig rebound :=
  Reachable.canSourceMAC _ 0 [2, 0, 0, 0, 0, 2]
    (Reachable.canSourceMAC _ 0 [2, 0, 0, 0, 0, 1] onePeer_reachable (by decide)) (by decide)

/-! ## Source MAC acceptance on reachable states -/

/-- C5: in a reachable state, `CanSourceMAC` for a 6-byte source MAC that is
broadcast, IPv4 multicast or IPv6 multicast, or whose text does not begin
with the non-empty configured `macPrefix`, returns `flagAsBad = true` with an
error (the first validation's error for a reserved address, the second's
otherwise) and returns the state it was given: `clientsByMAC` and every
client's learned MAC are unchanged. -/
theorem C5_canSourceMAC_rejects (cfg : Config) (s : State) (hr : Reachable cfg s) (c : Nat)
    (mac : Bytes) (hlen : mac.length = 6)
    (hbad : isReservedMAC mac = true ∨
      (cfg.macPrefix ≠ [] ∧ HasPrefix (HardwareAddr.String mac) cfg.macPrefix = false)) :
    Hub.CanSourceMAC cfg s c mac =
      (s, true, some (if isReservedMAC mac then GoError.macInvalid
        else GoError.macNotAccepted)) := by
  have hinv := invalidSrc_string mac hlen
  have hkey : mapGet s.hub.clientsByMAC (HardwareAddr.String mac) = none := by
    cases hg : mapGet s.hub.clientsByMAC (HardwareAddr.String mac) with
    | none => rfl
    | some x =>
      exfalso
      have hv := reachable_keysValid cfg s hr _ x hg
      rcases hbad with hres | ⟨hne, hpre⟩
      · rw [hinv, hres] at hv
        exact Bool.noConfusion hv.1
      · have hw : notWhitelisted cfg (HardwareAddr.String mac) = true := by
          simp [notWhitelisted, hne, hpre]
        rw [hw] at hv
        exact Bool.noConfusion hv.2
  cases hres : isReservedMAC mac with
  | true =>
    simp [Hub.CanSourceMAC, hkey, hinv, hres]
  | false =>
    rcases hbad with h1 | ⟨hne, hpre⟩
    · rw [hres] at h1
      exact Bool.noConfusion h1
    · have hw : notWhitelisted cfg (HardwareAddr.String mac) = true := by
        simp [notWhitelisted, hne, hpre]
      simp [Hub.CanSourceMAC, hkey, hinv, hres, hw]

theorem C5_canSourceMAC_rejects_witness :
    Hub.CanSourceMAC openConfig twoPeers 0 [0x01, 0x00, 0x5e, 0, 0, 7] =
      (twoPeers, true, some (if isReservedMAC [0x01, 0x00, 0x5e, 0, 0, 7] then GoError.macInvalid
        else GoError.macNotAccepted)) :=
  C5_canSourceMAC_rejects openConfig twoPeers twoPeers_reachable 0 [0x01, 0x00, 0x5e, 0, 0, 7]
    (by decide) (Or.inl (by decide))

/-- C6: for a 6-byte source MAC that is not broadcast, not IPv4 or IPv6
multicast and whose text begins with the configured `macPrefix` if there is
one: when its text is not a key of `clientsByMAC`, `CanSourceMAC(c, mac)`
returns `(false, nil)`, sets the learned MAC of `c` to `mac` and changes no
other field of `c` and no other client, maps the text to `c` in
`clientsByMAC` and leaves every other key, the `clients` map and the
allocation counter as they were; when the text is a key mapped to `c`
itself, it returns `(false, nil)` and the state it was given. -/
theorem C6_canSourceMAC_accepts (cfg : Config) (s : State) (c : Nat) (mac : Bytes)
    (hlen : mac.length = 6) (hres : isReservedMAC mac = false)
    (hwl : cfg.macPrefix = [] ∨ HasPrefix (HardwareAddr.String mac) cfg.macPrefix = true) :
    (mapGet s.hub.clientsByMAC (HardwareAddr.String mac) = none →
      (Hub.CanSourceMAC cfg s c mac).2 = (false, none) ∧
      (Hub.CanSourceMAC cfg s c mac).1.heap c = { s.heap c with mac := mac } ∧
      (∀ x, x ≠ c → (Hub.CanSourceMAC cfg s c mac).1.heap x = s.heap x) ∧
      mapGet (Hub.CanSourceMAC cfg s c mac).1.hub.clientsByMAC (HardwareAddr.String mac) =
        some c ∧
      (∀ k, k ≠ HardwareAddr.String mac →
        mapGet (Hub.CanSourceMAC cfg s c mac).1.hub.clientsByMAC k =
          mapGet s.hub.clientsByMAC k) ∧
      (Hub.CanSourceMAC cfg s c mac).1.hub.clients = s.hub.clients ∧
      (Hub.CanSourceMAC cfg s c mac).1.next = s.next) ∧
    (mapGet s.hub.clientsByMAC (HardwareAddr.String mac) = some c →
      Hub.CanSourceMAC cfg s c mac = (s, false, none)) := by
  have hinv : invalidSrc (HardwareAddr.String mac) = false := by
    rw [invalidSrc_string mac hlen, hres]
  have hw : notWhitelisted cfg (HardwareAddr.String mac) = false := by
    rcases hwl with h | h
    · simp [notWhitelisted, h]
    · simp [notWhitelisted, h]
  constructor
  · intro hkey
    have he : Hub.CanSourceMAC cfg s c mac =
        ({ s with
            hub := { s.hub with
              clientsByMAC := mapSet s.hub.clientsByMAC (HardwareAddr.String mac) c }
            heap := heapSet s.heap c { s.heap c with mac := mac } }, false, none) := by
      simp [Hub.CanSourceMAC, hkey, hinv, hw]
    rw [he]
    refine ⟨rfl, ?_, ?_, ?_, ?_, rfl, rfl⟩
    · simp [heapSet]
    · intro x hx
      simp [heapSet, hx]
    · exact mapGet_mapSet_self _ _ _
    · intro k hk
      exact mapGet_mapSet_ne _ _ hk
  · intro hkey
    simp [Hub.CanSourceMAC, hkey]

theorem C6_canSourceMAC_accepts_witness :
    (Hub.CanSourceMAC openConfig onePeer 0 [2, 0, 0, 0, 0, 1]).2 = (false, none) ∧
    ((Hub.CanSourceMAC openConfig onePeer 0 [2, 0, 0, 0, 0, 1]).1.heap 0).mac =
      [2, 0, 0, 0, 0, 1] ∧
    mapGet (Hub.CanSourceMAC openConfig onePeer 0 [2, 0, 0, 0, 0, 1]).1.hub.clientsByMAC
      (HardwareAddr.String [2, 0, 0, 0, 0, 1]) = some 0 :=
  have h := (C6_canSourceMAC_accepts openConfig onePeer 0 [2, 0, 0, 0, 0, 1] (by decide)
    (by decide) (Or.inl (by decide))).1 (by decide)
  ⟨h.1, by rw [h.2.1], h.2.2.2.1⟩

/-- C7: the index can hold a key that is not the learned MAC of the peer it
maps to, and a peer that is not registered. After connection 10 has sent a
frame from `02:00:00:00:00:01` and then one from `02:00:00:00:00:02`, the key
`02:00:00:00:00:01` still maps to the peer although its learned MAC is
`02:00:00:00:00:02`; after `Remove` of the peer the `clients` map is empty and
the key `02:00:00:00:00:01` still maps to it. Both states are reachable. -/
theorem C7_stale_key_after_second_mac :
    Reachable openConfig rebound ∧
    Reachable openConfig (Hub.Remove rebound 0).1 ∧
    mapGet rebound.hub.clientsByMAC (str "02:00:00:00:00:01") = some 0 ∧
    (rebound.heap 0).mac = [2, 0, 0, 0, 0, 2] ∧
    (Hub.Remove rebound 0).1.hub.clients = [] ∧
    mapGet (Hub.Remove rebound 0).1.hub.clientsByMAC (str "02:00:00:00:00:01") = some 0 :=
  ⟨rebound_reachable, Reachable.remove rebound 0 rebound_reachable (by decide),
    by decide, by decide, by decide, by decide⟩

/-- C8: in a reachable state two clients stored in the `clients` map that
have the same non-empty learned MAC are the same client. -/
theorem C8_registered_macs_distinct (cfg : Config) (s : State) (hr : Reachable cfg s)
    (ws1 ws2 p1 p2 : Nat)
    (h1 : mapGet s.hub.clients ws1 = some p1) (h2 : mapGet s.hub.clients ws2 = some p2)
    (hmac : (s.heap p1).mac ≠ []) (heq : (s.heap p1).mac = (s.heap p2).mac) : p1 = p2 := by
  obtain ⟨_, _, i3⟩ := reachable_hubInv cfg s hr
  have a := i3 ws1 p1 h1 hmac
  have b := i3 ws2 p2 h2 (heq ▸ hmac)
  rw [heq, b] at a
  exact (Option.some.inj a).symm

theorem C8_registered_macs_distinct_witness :
    mapGet twoPeers.hub.clients 10 = some 0 ∧ (twoPeers.heap 0).mac ≠ [] ∧ (0 : Nat) = 0 :=
  ⟨by decide, by decide,
    C8_registered_macs_distinct openConfig twoPeers twoPeers_reachable 10 10 0 0 (by decide)
      (by decide) (by decide) rfl⟩

/-- C9: in a reachable state no key of `clientsByMAC` is the text
`ff:ff:ff:ff:ff:ff` or begins with `01:00:5e` or with `33:33`; and the text
of a 6-byte address that is broadcast, IPv4 multicast or IPv6 multicast is
not a key. -/
theorem C9_no_reserved_key (cfg : Config) (s : State) (hr : Reachable cfg s) :
    (∀ k c, mapGet s.hub.clientsByMAC k = some c →
      k ≠ str "ff:ff:ff:ff:ff:ff" ∧ HasPrefix k (str "01:00:5e") = false ∧
        HasPrefix k (str "33:33") = false) ∧
    (∀ mac : Bytes, mac.length = 6 → isReservedMAC mac = true →
      mapGet s.hub.clientsByMAC (HardwareAddr.String mac) = none) := by
  have hv := reachable_keysValid cfg s hr
  constructor
  · intro k c hk
    have h := (hv k c hk).1
    simp only [invalidSrc, Bool.or_eq_false_iff, beq_eq_false_iff_ne, ne_eq] at h
    exact ⟨h.1.1, h.2, h.1.2⟩
  · intro mac hlen hres
    cases hg : mapGet s.hub.clientsByMAC (HardwareAddr.String mac) with
    | none => rfl
    | some x =>
      exfalso
      have h := (hv _ x hg).1
      rw [invalidSrc_string mac hlen, hres] at h
      exact Bool.noConfusion h

theorem C9_no_reserved_key_witness :
    mapGet twoPeers.hub.clientsByMAC (str "02:00:00:00:00:01") = some 0 ∧
    str "02:00:00:00:00:01" ≠ str "ff:ff:ff:ff:ff:ff" ∧
    mapGet twoPeers.hub.clientsByMAC
      (HardwareAddr.String [0xff, 0xff, 0xff, 0xff, 0xff, 0xff]) = none :=
  ⟨by decide,
    ((C9_no_reserved_key openConfig twoPeers twoPeers_reachable).1 _ 0 (by decide)).1,
    (C9_no_reserved_key openConfig twoPeers twoPeers_reachable).2 _ (by decide) (by decide)⟩

/-- C10: the all-zero MAC is learned. A pre-authorized peer (no key
configured) whose first message is the 12-byte frame
`02 00 00 00 00 01 00 00 00 00 00 00` is not treated as a control frame,
because the reader tests bytes 0..5; `CanSourceMAC` is called with the
all-zero source, binds it to the peer and indexes the peer under
`00:00:00:00:00:00`. The same happens with the key `s3cret` configured after
the peer has authorized itself. -/
theorem C10_zero_source_learned :
    (zeroSourceRun.state.heap 0).authorized = true ∧
    (zeroSourceRun.state.heap 0).mac = [0, 0, 0, 0, 0, 0] ∧
    mapGet zeroSourceRun.state.hub.clientsByMAC (str "00:00:00:00:00:00") = some 0 ∧
    zeroSourceRun.events =
      [Event.callCanSourceMAC 0 [0, 0, 0, 0, 0, 0],
       Event.callSwitchFrame 0 [2, 0, 0, 0, 0, 1, 0, 0, 0, 0, 0, 0],
       Event.uploadThrottle 12,
       Event.tapWrite [2, 0, 0, 0, 0, 1, 0, 0, 0, 0, 0, 0]] ∧
    (zeroSourceAfterAuth.state.heap 0).authorized = true ∧
    (zeroSourceAfterAuth.state.heap 0).mac = [0, 0, 0, 0, 0, 0] ∧
    mapGet zeroSourceAfterAuth.state.hub.clientsByMAC (str "00:00:00:00:00:00") = some 0 := by
  decide

/-! ## Removal -/

/-- C11: `Remove` can leave the removed peer in `clientsByMAC`. In the
reachable state where the peer of connection 10 has sent frames from
`02:00:00:00:00:01` and then from `02:00:00:00:00:02`, `Remove` of the peer
deletes its entry of `clients` and the key `02:00:00:00:00:02`, and the key
`02:00:00:00:00:01` still maps to the peer. -/
theorem C11_remove_keeps_first_binding :
    Reachable openConfig rebound ∧
    mapGet rebound.hub.clients 10 = some 0 ∧
    Hub.Remove rebound 0 =
      ((Hub.Remove rebound 0).1, [Event.terminate 0]) ∧
    mapGet (Hub.Remove rebound 0).1.hub.clients 10 = none ∧
    mapGet (Hub.Remove rebound 0).1.hub.clientsByMAC (str "02:00:00:00:00:02") = none ∧
    mapGet (Hub.Remove rebound 0).1.hub.clientsByMAC (str "02:00:00:00:00:01") = some 0 :=
  ⟨rebound_reachable, by decide, rfl, by decide, by decide, by decide⟩

/-- After `Remove` the connection of the client is not a key of `clients`. -/
theorem remove_clients_absent (s : State) (p : Nat) :
    mapGet (Hub.Remove s p).1.hub.clients (s.heap p).ws = none := by
  rcases remove_cases s p with he | ⟨_, he⟩
  · rw [he]
    cases hg : mapGet s.hub.clients (s.heap p).ws with
    | none => rfl
    | some x =>
      exfalso
      have h0 : Hub.Remove s p = (s, []) := he
      simp only [Hub.Remove, hg] at h0
      have h1 := congrArg Prod.snd h0
      simp at h1
  · rw [he]
    exact mapGet_mapDelete_self _ _

/-- C12: for every state and every peer, a second `Remove` of the peer
returns the state left by the first one, with both maps as they were, and
produces no event: no terminator signal is sent and nothing is deleted. -/
theorem C12_remove_idempotent (s : State) (p : Nat) :
    Hub.Remove (Hub.Remove s p).1 p = ((Hub.Remove s p).1, []) := by
  have habs := remove_clients_absent s p
  have hheap : (Hub.Remove s p).1.heap = s.heap := by
    rcases remove_cases s p with he | ⟨_, he⟩
    · rw [he]
    · rw [he]
  have h2 : mapGet (Hub.Remove s p).1.hub.clients ((Hub.Remove s p).1.heap p).ws = none := by
    rw [hheap]
    exact habs
  rcases remove_cases (Hub.Remove s p).1 p with he | ⟨hne, _⟩
  · exact he
  · exact absurd h2 hne

/-! ## Control frames -/

theorem auth_bytes : str "AUTH " = [65, 85, 84, 72, 32] := by decide

theorem take_auth (k : Bytes) : (str "AUTH " ++ k).take 5 = str "AUTH " := by
  rw [auth_bytes]
  rfl

theorem drop_auth (k : Bytes) : (str "AUTH " ++ k).drop 5 = k := by
  rw [auth_bytes]
  rfl

theorem controlFrame_length (payload : Bytes) :
    (controlFrame payload).length = payload.length + 6 := by
  simp [controlFrame]

theorem controlFrame_take (payload : Bytes) :
    (controlFrame payload).take 6 = [0, 0, 0, 0, 0, 0] := by
  simp [controlFrame]

theorem controlFrame_drop (payload : Bytes) : (controlFrame payload).drop 6 = payload := by
  simp [controlFrame]

/-- `HandleSpecialFrame` always asks to skip the frame, and it returns the
client it was given unless the payload is `AUTH ` followed by the configured
non-empty key, is at least 8 bytes long and the client is not authorized. -/
theorem handleSpecial_cases (cfg : Config) (c : Client) (payload : Bytes) :
    (Client.HandleSpecialFrame cfg c payload).2.1 = true ∧
    ((Client.HandleSpecialFrame cfg c payload).1 = c ∨
      (8 ≤ payload.length ∧ payload = str "AUTH " ++ cfg.authKey ∧ cfg.authKey ≠ [] ∧
        c.authorized = false)) := by
  unfold Client.HandleSpecialFrame
  by_cases h1 : payload.length < 8
  · simp [h1]
  · by_cases h2 : (payload.take 5 == str "AUTH ") = true
    · by_cases h3 : (cfg.authKey == []) = true
      · simp [h1, h2, h3]
      · by_cases h4 : c.authorized = true
        · simp [h1, h2, h3, h4]
        · by_cases h5 : (payload.drop 5 == cfg.authKey) = true
          · simp only [h1, h2, h3, h4, h5, if_true, if_false]
            refine ⟨rfl, Or.inr ⟨by omega, ?_, ?_, ?_⟩⟩
            · have ht := List.take_append_drop 5 payload
              rw [beq_iff_eq] at h2 h5
              rw [h2, h5] at ht
              exact ht.symm
            · intro h0
              exact h3 (by rw [h0]; rfl)
            · trivial
          · simp [h1, h2, h3, h4, h5]
    · simp [h1, h2]

theorem handleSpecial_accept (cfg : Config) (c : Client) (payload : Bytes)
    (hK : cfg.authKey ≠ []) (hauth : c.authorized = false) (hlen : 8 ≤ payload.length)
    (hp : payload = str "AUTH " ++ cfg.authKey) :
    Client.HandleSpecialFrame cfg c payload = ({ c with authorized := true }, true, false, none) := by
  have h1 : ¬ payload.length < 8 := by omega
  have h2 : (payload.take 5 == str "AUTH ") = true := by
    rw [hp, take_auth]
    exact beq_self_eq_true _
  have h3 : (cfg.authKey == []) = false := by
    cases hk : cfg.authKey with
    | nil => exact absurd hk hK
    | cons a t => rfl
  have h5 : (payload.drop 5 == cfg.authKey) = true := by
    rw [hp, drop_auth]
    exact beq_self_eq_true _
  simp [Client.HandleSpecialFrame, h1, h2, h3, hauth, h5]

theorem handleSpecial_reject (cfg : Config) (c : Client) (payload : Bytes)
    (hK : cfg.authKey ≠ []) (hauth : c.authorized = false) (hlen : 8 ≤ payload.length)
    (hpre : payload.take 5 = str "AUTH ") (hkey : payload.drop 5 ≠ cfg.authKey) :
    Client.HandleSpecialFrame cfg c payload =
      (c, true, true, some GoError.authKeyNotAccepted) := by
  have h1 : ¬ payload.length < 8 := by omega
  have h2 : (payload.take 5 == str "AUTH ") = true := by
    rw [hpre]
    exact beq_self_eq_true _
  have h3 : (cfg.authKey == []) = false := by
    cases hk : cfg.authKey with
    | nil => exact absurd hk hK
    | cons a t => rfl
  have h5 : (payload.drop 5 == cfg.authKey) = false := by
    rw [beq_eq_false_iff_ne]
    exact hkey
  simp [Client.HandleSpecialFrame, h1, h2, h3, hauth, h5]

/-- The reader's iteration on a control frame, when it is not flagged. -/
theorem readerStep_control (cfg : Config) (s : State) (client : Nat) (inp : Input)
    (payload : Bytes) (hlen : 6 ≤ payload.length)
    (hrecv : inp.recv = Received.frame (controlFrame payload)) :
    readerStep cfg s client false inp =
      ⟨{ s with
          heap := heapSet s.heap client (Client.HandleSpecialFrame cfg (s.heap client) payload).1 },
        (Client.HandleSpecialFrame cfg (s.heap client) payload).2.2.1, [], false⟩ := by
  have hskip := (handleSpecial_cases cfg (s.heap client) payload).1
  have h12 : ¬ (controlFrame payload).length < 12 := by
    rw [controlFrame_length]
    omega
  simp only [readerStep, hrecv, h12, controlFrame_take, controlFrame_drop, beq_self_eq_true,
    if_true, if_false, Bool.false_eq_true]
  cases hb : (Client.HandleSpecialFrame cfg (s.heap client) payload).2.2.1
  · simp [hskip]
  · simp

/-- A flagged reader discards every frame. -/
theorem readerStep_flagged (cfg : Config) (s : State) (client : Nat) (inp : Input) (f : Bytes)
    (hrecv : inp.recv = Received.frame f) :
    readerStep cfg s client true inp = ⟨s, true, [], false⟩ := by
  simp [readerStep, hrecv]

theorem readerLoop_flagged (cfg : Config) (client : Nat) (s : State) (evs : List Event)
    (inputs : List Input) (hframes : ∀ inp ∈ inputs, ∃ f, inp.recv = Received.frame f) :
    readerLoop cfg client ⟨s, true, evs, false⟩ inputs = ⟨s, true, evs, false⟩ := by
  induction inputs with
  | nil => rfl
  | cons inp rest ih =>
    obtain ⟨f, hf⟩ := hframes inp (List.mem_cons_self _ _)
    have hrest : ∀ i ∈ rest, ∃ f, i.recv = Received.frame f :=
      fun i hi => hframes i (List.mem_cons_of_mem _ hi)
    simp only [readerLoop, Bool.false_eq_true, if_false, readerStep_flagged cfg s client inp f hf,
      List.append_nil]
    exact ih hrest

/-- C13: with a non-empty key configured, for a peer that is not authorized
and a payload of at least 8 bytes that is `AUTH ` followed by the key,
`HandleSpecialFrame` returns the peer with `authorized` set, `skipFrame =
true`, `flagAsBad = false` and no error. The reader's iteration on the
control frame carrying it produces no event (no call of `CanSourceMAC`,
`SwitchFrame` or `Remove`) and does not return, flagged or not; when the
reader is not flagged the peer is authorized afterwards, the reader stays
unflagged and the hub maps are unchanged. -/
theorem C13_auth_accepted (cfg : Config) (s : State) (client : Nat) (payload : Bytes)
    (inp : Input) (hK : cfg.authKey ≠ []) (hauth : (s.heap client).authorized = false)
    (hlen : 8 ≤ payload.length) (hp : payload = str "AUTH " ++ cfg.authKey)
    (hrecv : inp.recv = Received.frame (controlFrame payload)) :
    Client.HandleSpecialFrame cfg (s.heap client) payload =
        ({ s.heap client with authorized := true }, true, false, none) ∧
      (∀ flagged, (readerStep cfg s client flagged inp).events = [] ∧
        (readerStep cfg s client flagged inp).returned = false) ∧
      (readerStep cfg s client false inp).flaggedAsBad = false ∧
      ((readerStep cfg s client false inp).state.heap client).authorized = true ∧
      (readerStep cfg s client false inp).state.hub = s.hub := by
  have hacc := handleSpecial_accept cfg (s.heap client) payload hK hauth hlen hp
  have hstep := readerStep_control cfg s client inp payload (by omega) hrecv
  refine ⟨hacc, ?_, ?_, ?_, ?_⟩
  · intro flagged
    cases flagged
    · rw [hstep]
      exact ⟨rfl, rfl⟩
    · rw [readerStep_flagged cfg s client inp _ hrecv]
      exact ⟨rfl, rfl⟩
  · rw [hstep, hacc]
  · rw [hstep, hacc]
    simp [heapSet]
  · rw [hstep]

theorem C13_auth_accepted_witness :
    Client.HandleSpecialFrame secretConfig (lockedPeer.heap 0) (str "AUTH s3cret") =
        ({ lockedPeer.heap 0 with authorized := true }, true, false, none) ∧
      ((readerStep secretConfig lockedPeer 0 false
        ⟨Received.frame (controlFrame (str "AUTH s3cret")), false, none⟩).state.heap
          0).authorized = true :=
  have h := C13_auth_accepted secretConfig lockedPeer 0 (str "AUTH s3cret")
    ⟨Received.frame (controlFrame (str "AUTH s3cret")), false, none⟩ (by decide) (by decide)
    (by decide) (by decide) rfl
  ⟨h.1, h.2.2.2.1⟩

/-- C14: with a non-empty key configured, for a peer that is not authorized
and a payload of at least 8 bytes that begins with `AUTH ` and continues
with anything but the key, `HandleSpecialFrame` returns `skipFrame = true`,
`flagAsBad = true`, an error and the peer unchanged. A reader that receives
the control frame carrying it, followed by any frames, ends flagged, has not
returned (the peer is not removed), has produced no event of its own, and
leaves the hub maps and every client, the peer's `authorized` flag included,
as they were. -/
theorem C14_auth_rejected_quarantine (cfg : Config) (s : State) (client : Nat)
    (payload : Bytes) (inp : Input) (later : List Input) (evs : List Event)
    (hK : cfg.authKey ≠ []) (hauth : (s.heap client).authorized = false)
    (hlen : 8 ≤ payload.length) (hpre : payload.take 5 = str "AUTH ")
    (hkey : payload.drop 5 ≠ cfg.authKey)
    (hrecv : inp.recv = Received.frame (controlFrame payload))
    (hlater : ∀ i ∈ later, ∃ f, i.recv = Received.frame f) :
    Client.HandleSpecialFrame cfg (s.heap client) payload =
        (s.heap client, true, true, some GoError.authKeyNotAccepted) ∧
      (readerLoop cfg client ⟨s, false, evs, false⟩ (inp :: later)).flaggedAsBad = true ∧
      (readerLoop cfg client ⟨s, false, evs, false⟩ (inp :: later)).returned = false ∧
      (readerLoop cfg client ⟨s, false, evs, false⟩ (inp :: later)).events = evs ∧
      (readerLoop cfg client ⟨s, false, evs, false⟩ (inp :: later)).state.hub = s.hub ∧
      (readerLoop cfg client ⟨s, false, evs, false⟩ (inp :: later)).state.next = s.next ∧
      (∀ x, (readerLoop cfg client ⟨s, false, evs, false⟩ (inp :: later)).state.heap x =
        s.heap x) := by
  have hrej := handleSpecial_reject cfg (s.heap client) payload hK hauth hlen hpre hkey
  have hstep := readerStep_control cfg s client inp payload (by omega) hrecv
  rw [hrej] at hstep
  have hloop : readerLoop cfg client ⟨s, false, evs, false⟩ (inp :: later) =
      ⟨{ s with heap := heapSet s.heap client (s.heap client) }, true, evs, false⟩ := by
    simp only [readerLoop, Bool.false_eq_true, if_false, hstep, List.append_nil]
    exact readerLoop_flagged cfg client _ evs later hlater
  rw [hloop]
  refine ⟨hrej, rfl, rfl, rfl, rfl, rfl, ?_⟩
  intro x
  by_cases hx : x = client
  · simp [heapSet, hx]
  · simp [heapSet, hx]

theorem C14_auth_rejected_quarantine_witness :
    (readerLoop secretConfig 0 ⟨lockedPeer, false, [], false⟩
      [⟨Received.frame (controlFrame (str "AUTH wrong")), false, none⟩,
       ⟨Received.frame (controlFrame (str "AUTH s3cret")), false, none⟩,
       ⟨Received.frame [2, 0, 0, 0, 0, 2, 2, 0, 0, 0, 0, 1], false, none⟩]).flaggedAsBad =
        true ∧
    (readerLoop secretConfig 0 ⟨lockedPeer, false, [], false⟩
      [⟨Received.frame (controlFrame (str "AUTH wrong")), false, none⟩,
       ⟨Received.frame (controlFrame (str "AUTH s3cret")), false, none⟩,
       ⟨Received.frame [2, 0, 0, 0, 0, 2, 2, 0, 0, 0, 0, 1], false, none⟩]).events = [] :=
  have h := C14_auth_rejected_quarantine secretConfig lockedPeer 0 (str "AUTH wrong")
    ⟨Received.frame (controlFrame (str "AUTH wrong")), false, none⟩
    [⟨Received.frame (controlFrame (str "AUTH s3cret")), false, none⟩,
     ⟨Received.frame [2, 0, 0, 0, 0, 2, 2, 0, 0, 0, 0, 1], false, none⟩] []
    (by decide) (by decide) (by decide) (by decide) (by decide) rfl
    (by
      intro i hi
      simp only [List.mem_cons, List.mem_singleton, List.not_mem_nil, or_false] at hi
      rcases hi with h | h
      · exact ⟨_, by rw [h]⟩
      · exact ⟨_, by rw [h]⟩)
  ⟨h.2.1, h.2.2.2.1⟩

/-- An iteration of the reader for a peer that is not authorized, on a frame
that is not the control frame carrying `AUTH ` and the key: nothing happens. -/
theorem readerStep_unauthorized (cfg : Config) (s : State) (client : Nat) (flagged : Bool)
    (inp : Input) (f : Bytes) (hauth : (s.heap client).authorized = false)
    (hrecv : inp.recv = Received.frame f)
    (hnot : ¬ (f.take 6 = [0, 0, 0, 0, 0, 0] ∧ 8 ≤ (f.drop 6).length ∧
      f.drop 6 = str "AUTH " ++ cfg.authKey)) :
    (readerStep cfg s client flagged inp).events = [] ∧
    (readerStep cfg s client flagged inp).returned = false ∧
    (readerStep cfg s client flagged inp).state.hub = s.hub ∧
    (readerStep cfg s client flagged inp).state.next = s.next ∧
    (∀ x, (readerStep cfg s client flagged inp).state.heap x = s.heap x) := by
  cases flagged with
  | true =>
    rw [readerStep_flagged cfg s client inp f hrecv]
    exact ⟨rfl, rfl, rfl, rfl, fun _ => rfl⟩
  | false =>
    by_cases h12 : f.length < 12
    · simp [readerStep, hrecv, h12]
    · by_cases hz : f.take 6 = [0, 0, 0, 0, 0, 0]
      · have hf : f = controlFrame (f.drop 6) := by
          unfold controlFrame
          rw [← hz]
          exact (List.take_append_drop 6 f).symm
        have hlen : 6 ≤ (f.drop 6).length := by
          rw [List.length_drop]
          omega
        have hrecv1 : inp.recv = Received.frame (controlFrame (f.drop 6)) := by
          rw [← hf]
          exact hrecv
        rw [readerStep_control cfg s client inp (f.drop 6) hlen hrecv1]
        rcases (handleSpecial_cases cfg (s.heap client) (f.drop 6)).2 with hsame | hsucc
        · refine ⟨rfl, rfl, rfl, rfl, ?_⟩
          intro x
          rw [hsame]
          by_cases hx : x = client
          · simp [heapSet, hx]
          · simp [heapSet, hx]
        · exact absurd ⟨hz, hsucc.1, hsucc.2.1⟩ hnot
      · have hz1 : (f.take 6 == [0, 0, 0, 0, 0, 0]) = false := by
          rw [beq_eq_false_iff_ne]
          exact hz
        simp [readerStep, hrecv, h12, hz1, switchReceived, hauth]

theorem readerLoop_unauthorized (cfg : Config) (client : Nat) (inputs : List Input) :
    ∀ r : Reader, r.returned = false → (r.state.heap client).authorized = false →
      (∀ inp ∈ inputs, ∃ f, inp.recv = Received.frame f ∧
        ¬ (f.take 6 = [0, 0, 0, 0, 0, 0] ∧ 8 ≤ (f.drop 6).length ∧
          f.drop 6 = str "AUTH " ++ cfg.authKey)) →
      (readerLoop cfg client r inputs).events = r.events ∧
      (readerLoop cfg client r inputs).returned = false ∧
      (readerLoop cfg client r inputs).state.hub = r.state.hub ∧
      (readerLoop cfg client r inputs).state.next = r.state.next ∧
      (∀ x, (readerLoop cfg client r inputs).state.heap x = r.state.heap x) := by
  induction inputs with
  | nil =>
    intro r hret _ _
    exact ⟨rfl, hret, rfl, rfl, fun _ => rfl⟩
  | cons inp rest ih =>
    intro r hret hauth hframes
    obtain ⟨f, hf, hnot⟩ := hframes inp (List.mem_cons_self _ _)
    have hrest : ∀ i ∈ rest, ∃ f, i.recv = Received.frame f ∧
        ¬ (f.take 6 = [0, 0, 0, 0, 0, 0] ∧ 8 ≤ (f.drop 6).length ∧
          f.drop 6 = str "AUTH " ++ cfg.authKey) :=
      fun i hi => hframes i (List.mem_cons_of_mem _ hi)
    obtain ⟨e1, e2, e3, e4, e5⟩ :=
      readerStep_unauthorized cfg r.state client r.flaggedAsBad inp f hauth hf hnot
    simp only [readerLoop, hret, Bool.false_eq_true, if_false]
    have hnext := ih
      ⟨(readerStep cfg r.state client r.flaggedAsBad inp).state,
        (readerStep cfg r.state client r.flaggedAsBad inp).flaggedAsBad,
        r.events ++ (readerStep cfg r.state client r.flaggedAsBad inp).events,
        (readerStep cfg r.state client r.flaggedAsBad inp).returned⟩
      e2 (by rw [e5 client]; exact hauth) hrest
    obtain ⟨n1, n2, n3, n4, n5⟩ := hnext
    refine ⟨?_, n2, ?_, ?_, ?_⟩
    · rw [n1, e1, List.append_nil]
    · rw [n3, e3]
    · rw [n4, e4]
    · intro x
      rw [n5 x, e5 x]

/-- C15: with a non-empty key configured, the client that `Add` creates is
not authorized, and a reader that receives any finite sequence of frames none
of which is a control frame whose payload is at least 8 bytes long and is
`AUTH ` followed by the key produces no event (no call of `CanSourceMAC` or
`SwitchFrame`, nothing queued on a peer, nothing written to the TAP device)
and does not return; afterwards the peer is still not authorized, has no
learned MAC, and the hub maps are what `Add` left. -/
theorem C15_unauthorized_peer_is_ignored (cfg : Config) (now : Int) (s : State) (ws : Nat)
    (inputs : List Input) (hK : cfg.authKey ≠ [])
    (hframes : ∀ inp ∈ inputs, ∃ f, inp.recv = Received.frame f ∧
      ¬ (f.take 6 = [0, 0, 0, 0, 0, 0] ∧ 8 ≤ (f.drop 6).length ∧
        f.drop 6 = str "AUTH " ++ cfg.authKey)) :
    ((Hub.Add cfg now s ws).1.heap (Hub.Add cfg now s ws).2).authorized = false ∧
    (websocketHandler cfg now s ws inputs).events = [] ∧
    (websocketHandler cfg now s ws inputs).returned = false ∧
    ((websocketHandler cfg now s ws inputs).state.heap (Hub.Add cfg now s ws).2).authorized =
      false ∧
    ((websocketHandler cfg now s ws inputs).state.heap (Hub.Add cfg now s ws).2).mac = [] ∧
    (websocketHandler cfg now s ws inputs).state.hub = (Hub.Add cfg now s ws).1.hub := by
  have hk : (cfg.authKey == []) = false := by
    cases hc : cfg.authKey with
    | nil => exact absurd hc hK
    | cons a t => rfl
  have hstart : ((Hub.Add cfg now s ws).1.heap (Hub.Add cfg now s ws).2).authorized = false := by
    simp [Hub.Add, heapSet, hk]
  have hmac : ((Hub.Add cfg now s ws).1.heap (Hub.Add cfg now s ws).2).mac = [] := by
    simp [Hub.Add, heapSet]
  obtain ⟨l1, l2, l3, _, l5⟩ := readerLoop_unauthorized cfg (Hub.Add cfg now s ws).2 inputs
    ⟨(Hub.Add cfg now s ws).1, false, [], false⟩ rfl hstart hframes
  refine ⟨hstart, l1, l2, ?_, ?_, l3⟩
  · show ((readerLoop cfg (Hub.Add cfg now s ws).2 ⟨(Hub.Add cfg now s ws).1, false, [], false⟩
      inputs).state.heap (Hub.Add cfg now s ws).2).authorized = false
    rw [l5]
    exact hstart
  · show ((readerLoop cfg (Hub.Add cfg now s ws).2 ⟨(Hub.Add cfg now s ws).1, false, [], false⟩
      inputs).state.heap (Hub.Add cfg now s ws).2).mac = []
    rw [l5]
    exact hmac

theorem C15_unauthorized_peer_is_ignored_witness :
    (websocketHandler secretConfig 0 NewHub 10
      [⟨Received.frame [2, 0, 0, 0, 0, 2, 2, 0, 0, 0, 0, 1], false, none⟩,
       ⟨Received.frame (controlFrame (str "AUTH s3cre")), false, none⟩]).events = [] ∧
    ((websocketHandler secretConfig 0 NewHub 10
      [⟨Received.frame [2, 0, 0, 0, 0, 2, 2, 0, 0, 0, 0, 1], false, none⟩,
       ⟨Received.frame (controlFrame (str "AUTH s3cre")), false, none⟩]).state.heap
        (Hub.Add secretConfig 0 NewHub 10).2).authorized = false :=
  have h := C15_unauthorized_peer_is_ignored secretConfig 0 NewHub 10
    [⟨Received.frame [2, 0, 0, 0, 0, 2, 2, 0, 0, 0, 0, 1], false, none⟩,
     ⟨Received.frame (controlFrame (str "AUTH s3cre")), false, none⟩]
    (by decide)
    (by
      intro i hi
      simp only [List.mem_cons, List.mem_singleton, List.not_mem_nil, or_false] at hi
      rcases hi with h | h
      · exact ⟨_, by rw [h], by decide⟩
      · exact ⟨_, by rw [h], by decide⟩)
  ⟨h.2.1, h.2.2.2.1⟩

/-- C16: for every payload shorter than 8 bytes, whatever it contains and
whatever is configured, `HandleSpecialFrame` returns `skipFrame = true`,
`flagAsBad = false`, the too-short error and the client it was given. In
particular, when the payload is `AUTH ` followed by a key, that key has
fewer than 3 bytes and the client's `authorized` flag is unchanged even with
that very key configured. -/
theorem C16_short_payload_rejected (cfg : Config) (c : Client) (payload : Bytes)
    (hlen : payload.length < 8) :
    Client.HandleSpecialFrame cfg c payload =
        (c, true, false, some (GoError.specialTooShort payload.length)) ∧
      (∀ key, payload = str "AUTH " ++ key →
        key.length < 3 ∧
        (Client.HandleSpecialFrame { cfg with authKey := key } c payload).1.authorized =
          c.authorized) := by
  constructor
  · simp [Client.HandleSpecialFrame, hlen]
  · intro key hp
    constructor
    · have h5 : payload.length = 5 + key.length := by
        rw [hp, List.length_append, auth_bytes]
        rfl
      omega
    · simp [Client.HandleSpecialFrame, hlen]

theorem C16_short_payload_rejected_witness :
    Client.HandleSpecialFrame ⟨str "ab", [], 0, 0⟩ (lockedPeer.heap 0) (str "AUTH ab") =
      (lockedPeer.heap 0, true, false, some (GoError.specialTooShort (str "AUTH ab").length)) :=
  (C16_short_payload_rejected ⟨str "ab", [], 0, 0⟩ (lockedPeer.heap 0) (str "AUTH ab")
    (by decide)).1

/-- C17, as stated, fails: with no key configured the payload `AUTH ` (an
empty key) begins with `AUTH ` and is rejected with the too-short error, not
with the authorization-disabled error. -/
theorem C17_empty_key_is_too_short :
    openConfig.authKey = [] ∧
    (str "AUTH ").take 5 = str "AUTH " ∧
    Client.HandleSpecialFrame openConfig limitedClient (str "AUTH ") =
      (limitedClient, true, false, some (GoError.specialTooShort 5)) ∧
    (Client.HandleSpecialFrame openConfig limitedClient (str "AUTH ")).2.2.2 ≠
      some GoError.authDisabled := by
  decide

/-- C17, amended: with no key configured, a payload that begins with `AUTH `
is rejected with `skipFrame = true`, `flagAsBad = false` and the client
unchanged; the error is the authorization-disabled one when the payload has
at least 8 bytes and the too-short one when it has fewer. -/
theorem C17_auth_disabled (cfg : Config) (c : Client) (payload : Bytes)
    (hK : cfg.authKey = []) (hpre : payload.take 5 = str "AUTH ") :
    (8 ≤ payload.length →
      Client.HandleSpecialFrame cfg c payload = (c, true, false, some GoError.authDisabled)) ∧
    (payload.length < 8 →
      Client.HandleSpecialFrame cfg c payload =
        (c, true, false, some (GoError.specialTooShort payload.length))) := by
  constructor
  · intro hlen
    have h1 : ¬ payload.length < 8 := by omega
    simp [Client.HandleSpecialFrame, h1, hpre, hK]
  · intro hlen
    simp [Client.HandleSpecialFrame, hlen]

theorem C17_auth_disabled_witness :
    Client.HandleSpecialFrame openConfig limitedClient (str "AUTH s3cret") =
      (limitedClient, true, false, some GoError.authDisabled) :=
  (C17_auth_disabled openConfig limitedClient (str "AUTH s3cret") (by decide) (by decide)).1
    (by decide)

/-! ## The rate limiter -/

/-- C18: a consult does not update the bucket stored in the peer. For a
client whose download bucket has rate 1000, allowance 1000 and `lastCheck`
0, a consult for 200 bytes one second later (credit 1000) answers true, and
the copy of the bucket inside `DoThrottle` ends with `lastCheck` at the time
of the consult and allowance 800; the bucket stored in the client still has
`lastCheck` 0 and allowance 1000. The same holds for the upload bucket, and
in general the client after a consult is the client before it. -/
theorem C18_consult_is_not_stored :
    limitedClient.download = ⟨0, 1000, 1000⟩ ∧
    limitedClient.download.DoThrottle 1000000000 1000 200 =
      (⟨1000000000, 800, 1000⟩, true) ∧
    Client.DownloadThrottle limitedClient 1000000000 1000 200 = (limitedClient, true) ∧
    (Client.DownloadThrottle limitedClient 1000000000 1000 200).1.download =
      ⟨0, 1000, 1000⟩ ∧
    limitedClient.upload.DoThrottle 1000000000 1000 200 = (⟨1000000000, 800, 1000⟩, true) ∧
    (Client.UploadThrottle limitedClient 1000000000 1000 200).1.upload = ⟨0, 1000, 1000⟩ ∧
    (∀ (c : Client) (now credit : Int) (n : Nat),
      (Client.DownloadThrottle c now credit n).1 = c ∧
        (Client.UploadThrottle c now credit n).1 = c) :=
  ⟨by decide, by decide, by decide, by decide, by decide, by decide,
    fun _ _ _ _ => ⟨rfl, rfl⟩⟩

/-- C19: the credit is never exhausted. For a client whose buckets have rate
1000 and allowance 1000, any number of consecutive consults for 200 bytes
with no time elapsed all answer true, through `DownloadThrottle` and through
`UploadThrottle`, and the client, its stored allowances included, is
unchanged at the end. -/
theorem C19_every_consult_signals (n : Nat) :
    consultDownloads limitedClient (List.replicate n (0, 0, 200)) =
      (limitedClient, List.replicate n true) ∧
    consultUploads limitedClient (List.replicate n (0, 0, 200)) =
      (limitedClient, List.replicate n true) := by
  have hd : Client.DownloadThrottle limitedClient 0 0 200 = (limitedClient, true) := by decide
  have hu : Client.UploadThrottle limitedClient 0 0 200 = (limitedClient, true) := by decide
  induction n with
  | zero => exact ⟨rfl, rfl⟩
  | succ k ih =>
    constructor
    · simp only [List.replicate_succ, consultDownloads, hd, ih.1]
    · simp only [List.replicate_succ, consultUploads, hu, ih.2]

/-! ## Bandwidth strings -/

/-- C20: the `bps` row of the unit table is not what `parseBandwidth`
computes: it cuts four bytes for the three-byte suffix, so `100bps` yields
10, `5bps` yields a syntax error and `bps` alone panics. The other rows hold
at 100: `100kbps`, `100mbps`, `100kbit`, `100mbit`, the bare `100` and the
empty string yield 100000, 100000000, 12500, 12500000, 100 and 0. -/
theorem C20_bps_suffix_cuts_four_bytes :
    parseBandwidth (str "100bps") = some (10, none) ∧
    parseBandwidth (str "5bps") = some (0, some GoError.parseSyntax) ∧
    parseBandwidth (str "bps") = none ∧
    parseBandwidth (str "100kbps") = some (100000, none) ∧
    parseBandwidth (str "100mbps") = some (100000000, none) ∧
    parseBandwidth (str "100kbit") = some (12500, none) ∧
    parseBandwidth (str "100mbit") = some (12500000, none) ∧
    parseBandwidth (str "100") = some (100, none) ∧
    parseBandwidth (str "") = some (0, none) := by
  decide

/-! ## The sender goroutine -/

/-- Whenever `deliverFrames` returns an error while the client is still
registered, the goroutine stops in `Remove` with the hub lock held. -/
theorem senderGoroutine_stuck (s : State) (c x : Nat) (sel : List Selected) (e : GoError)
    (hreg : mapGet s.hub.clients (s.heap c).ws = some x)
    (herr : (Client.deliverFrames sel).2 = some (some e)) :
    (senderGoroutine s c sel).2 = SenderEnd.stuckInRemove := by
  simp [senderGoroutine, herr, Hub.RemoveWith, hreg]

/-- C21: when the write fails, `deliverFrames` returns the error and the
goroutine calls `Remove`, which does not complete. With peer 0 registered on
connection 10, a queued frame whose `websocket.Message.Send` fails makes the
sender consult the throttle, attempt the write and leave the loop with the
error; `Remove`, called with nobody receiving on the terminator, has no
result; the goroutine is stopped there, holding the hub lock. -/
theorem C21_sender_remove_never_completes :
    mapGet onePeer.hub.clients (onePeer.heap 0).ws = some 0 ∧
    Client.deliverFrames
        [Selected.frame [2, 0, 0, 0, 0, 1, 2, 0, 0, 0, 0, 9] false (some GoError.wsSendFailed)] =
      ([SenderEvent.downloadThrottle 12, SenderEvent.wsSend [2, 0, 0, 0, 0, 1, 2, 0, 0, 0, 0, 9]],
        some (some GoError.wsSendFailed)) ∧
    (Hub.RemoveWith onePeer 0 false).isNone = true ∧
    (senderGoroutine onePeer 0
        [Selected.frame [2, 0, 0, 0, 0, 1, 2, 0, 0, 0, 0, 9] false
          (some GoError.wsSendFailed)]).2.holdsHubLock = true ∧
    (senderGoroutine onePeer 0
        [Selected.frame [2, 0, 0, 0, 0, 1, 2, 0, 0, 0, 0, 9] false
          (some GoError.wsSendFailed)]).1 =
      [SenderEvent.downloadThrottle 12,
        SenderEvent.wsSend [2, 0, 0, 0, 0, 1, 2, 0, 0, 0, 0, 9]] := by
  decide

/-! ## The TAP reader -/

theorem readInto_length (buf bytes : Bytes) : (readInto buf bytes).length = buf.length := by
  simp only [readInto, readCount, List.length_append, List.length_take, List.length_drop]
  omega

theorem readInto_replicate (n : Nat) (bytes : Bytes) (h : bytes.length ≤ n) :
    readInto (List.replicate n 0) bytes = bytes ++ List.replicate (n - bytes.length) 0 := by
  have hc : readCount (List.replicate n 0) bytes = bytes.length := by
    simp only [readCount, List.length_replicate]
    exact Nat.min_eq_left h
  simp only [readInto, hc, List.take_length, List.drop_replicate]

/-- Reading a frame that fits into a fresh buffer: the frame, then zeros up
to the length of the buffer. -/
theorem readInto_tapBuffer (bytes : Bytes) (h : bytes.length ≤ 1518) :
    readInto tapBuffer bytes = bytes ++ List.replicate (1518 - bytes.length) 0 :=
  readInto_replicate 1518 bytes h

/-- A read of fewer than 12 bytes is discarded. -/
theorem readTAPLoop_short (s : State) (frame bytes : Bytes) (rest : List TapRead)
    (h : readCount frame bytes < 12) :
    readTAPLoop s frame (TapRead.data bytes :: rest) = readTAPLoop s (readInto frame bytes) rest := by
  simp [readTAPLoop, h]

/-- Every frame handed to `SwitchFrame` by the TAP reader has the length of
the buffer. -/
theorem readTAPLoop_frames_length (s : State) (reads : List TapRead) :
    ∀ frame : Bytes, ∀ f ∈ (readTAPLoop s frame reads).2.1, f.length = frame.length := by
  induction reads with
  | nil =>
    intro frame f hf
    simp [readTAPLoop] at hf
  | cons r rest ih =>
    intro frame f hf
    cases r with
    | failed err => simp [readTAPLoop] at hf
    | data bytes =>
      by_cases hn : readCount frame bytes < 12
      · rw [readTAPLoop_short s frame bytes rest hn] at hf
        rw [ih (readInto frame bytes) f hf, readInto_length]
      · simp only [readTAPLoop, hn, if_false] at hf
        split at hf
        · simp only [List.mem_singleton] at hf
          rw [hf, readInto_length]
        · simp only [List.mem_cons] at hf
          rcases hf with h1 | h1
          · rw [h1, readInto_length]
          · rw [ih (readInto frame bytes) f h1, readInto_length]

theorem tapBuffer_length : tapBuffer.length = 1518 :=
  List.length_replicate _ _

theorem readCount_of_le (buf bytes : Bytes) (h : bytes.length ≤ buf.length) :
    readCount buf bytes = bytes.length :=
  Nat.min_eq_left h

/-- A single read of at least 12 bytes: the buffer is handed to
`SwitchFrame` with no source. -/
theorem readTAPLoop_one (s : State) (frame bytes : Bytes) (h : ¬ readCount frame bytes < 12) :
    readTAPLoop s frame [TapRead.data bytes] =
      ((Hub.SwitchFrame s none (readInto frame bytes) none).1, [readInto frame bytes],
        (Hub.SwitchFrame s none (readInto frame bytes) none).2.2) := by
  simp only [readTAPLoop, h, if_false]
  split
  · rename_i err herr
    rw [herr]
  · rename_i herr
    rw [herr, List.append_nil]

/-- C22: the frame handed to `SwitchFrame` is the whole buffer. With peer 1
bound to `02:00:00:00:00:02`, a read that returns the 12 bytes
`02 00 00 00 00 02 02 00 00 00 00 09` hands the buffer to `SwitchFrame`, which
queues it on peer 1: a message of 1518 bytes that begins with the 12 bytes
read and is not those 12 bytes. After an earlier read of 14 bytes ending in
`07 07`, the buffer that holds a 12-byte frame continues with `07 07`. A read
of 11 bytes switches nothing. -/
theorem C22_tap_hands_whole_buffer :
    readTAPTraffic twoPeers [TapRead.data [2, 0, 0, 0, 0, 2, 2, 0, 0, 0, 0, 9]] =
      ([Event.download 1 (readInto tapBuffer [2, 0, 0, 0, 0, 2, 2, 0, 0, 0, 0, 9])],
        [readInto tapBuffer [2, 0, 0, 0, 0, 2, 2, 0, 0, 0, 0, 9]], none) ∧
    (readInto tapBuffer [2, 0, 0, 0, 0, 2, 2, 0, 0, 0, 0, 9]).length = 1518 ∧
    (readInto tapBuffer [2, 0, 0, 0, 0, 2, 2, 0, 0, 0, 0, 9]).take 12 =
      [2, 0, 0, 0, 0, 2, 2, 0, 0, 0, 0, 9] ∧
    readInto tapBuffer [2, 0, 0, 0, 0, 2, 2, 0, 0, 0, 0, 9] ≠
      [2, 0, 0, 0, 0, 2, 2, 0, 0, 0, 0, 9] ∧
    (readInto (readInto tapBuffer [2, 0, 0, 0, 0, 1, 2, 0, 0, 0, 0, 9, 7, 7])
        [2, 0, 0, 0, 0, 2, 2, 0, 0, 0, 0, 9]).take 14 =
      [2, 0, 0, 0, 0, 2, 2, 0, 0, 0, 0, 9, 7, 7] ∧
    readTAPTraffic twoPeers [TapRead.data [2, 0, 0, 0, 0, 2, 2, 0, 0, 0, 0]] = ([], [], none) := by
  have hc14 : readCount tapBuffer [2, 0, 0, 0, 0, 1, 2, 0, 0, 0, 0, 9, 7, 7] = 14 :=
    readCount_of_le _ _ (by rw [tapBuffer_length]; decide)
  have hc12b : readCount (readInto tapBuffer [2, 0, 0, 0, 0, 1, 2, 0, 0, 0, 0, 9, 7, 7])
      [2, 0, 0, 0, 0, 2, 2, 0, 0, 0, 0, 9] = 12 :=
    readCount_of_le _ _ (by rw [readInto_length, tapBuffer_length]; decide)
  have hc12 : readCount tapBuffer [2, 0, 0, 0, 0, 2, 2, 0, 0, 0, 0, 9] = 12 :=
    readCount_of_le _ _ (by rw [tapBuffer_length]; decide)
  have hc11 : readCount tapBuffer [2, 0, 0, 0, 0, 2, 2, 0, 0, 0, 0] = 11 :=
    readCount_of_le _ _ (by rw [tapBuffer_length]; decide)
  have hlen : (readInto tapBuffer [2, 0, 0, 0, 0, 2, 2, 0, 0, 0, 0, 9]).length = 1518 := by
    rw [readInto_length, tapBuffer_length]
  have hdst : MACDestination (readInto tapBuffer [2, 0, 0, 0, 0, 2, 2, 0, 0, 0, 0, 9]) =
      [2, 0, 0, 0, 0, 2] := by
    simp only [MACDestination, readInto, hc12]
    rfl
  have hsw : Hub.SwitchFrame twoPeers none
      (readInto tapBuffer [2, 0, 0, 0, 0, 2, 2, 0, 0, 0, 0, 9]) none =
      ([Event.download 1 (readInto tapBuffer [2, 0, 0, 0, 0, 2, 2, 0, 0, 0, 0, 9])],
        true, none) := by
    have hkey : mapGet twoPeers.hub.clientsByMAC (HardwareAddr.String [2, 0, 0, 0, 0, 2]) =
        some 1 := by decide
    rw [switchFrame_eq, hdst, hkey]
  refine ⟨?_, hlen, ?_, ?_, ?_, ?_⟩
  · show readTAPLoop twoPeers tapBuffer _ = _
    rw [readTAPLoop_one twoPeers tapBuffer _ (by rw [hc12]; decide), hsw]
  · simp only [readInto, hc12]
    rfl
  · intro h
    have h2 := congrArg List.length h
    rw [hlen] at h2
    exact absurd h2 (by decide)
  · rw [readInto, hc12b]
    simp only [readInto, hc14]
    rfl
  · show readTAPLoop twoPeers tapBuffer _ = _
    rw [readTAPLoop_short twoPeers tapBuffer _ [] (by rw [hc11]; decide)]
    rfl

end WebsockProxy
